import Mathlib

/-!
Verification of the Quadtris game core (`src/scripts/QuadtrisGame.mjs` together
with the `QuadtrisInput` module) against its natural-language specification.

The JavaScript source is shallowly embedded: the mutable `QuadtrisGame` object
becomes a `GameState` record, every method becomes a pure function on it, the
`Uint32Array` grid rows become natural numbers (every row value the code writes
is `< 2 ^ 32` and every read masks with a constant `< 2 ^ 32`, so plain `Nat`
bitwise operations realize the JS 32-bit semantics here), and `Math.random()`
draws are modelled by an explicit tape of natural numbers, each draw taken
modulo the number of remaining choices, so the tapes denote exactly the
possible sequences of uniform draws.
-/

set_option maxHeartbeats 1600000

namespace Quadtris

/-- Number of rows in the grid (`QuadtrisGame.numRows = 21`). -/
def numRows : ℕ := 21

/-- The playfield (`gameState.gridData`): one unsigned 32-bit word per row.
Each row packs 10 cells of 3 bits each, most-significant first, with 2 unused
trailing bits. -/
abbrev Grid := Fin 21 → ℕ

/-- Reading `gridData[y]`: a `Uint32Array` yields `undefined` out of range,
which the bitwise operators coerce to `0`. -/
def rowAt (g : Grid) (y : ℤ) : ℕ :=
  if h : 0 ≤ y ∧ y < 21 then g ⟨y.toNat, by omega⟩ else 0

/-- Source `QuadtrisGame.isBlockHere(x, y)`: true when the coordinate is out of
bounds or the packed 3-bit cell is non-zero.  The source mask is
`0b111 << (32 - (3 + 3*x))`; in the in-bounds branch `0 ≤ x ≤ 9`, so the shift
equals `29 - 3*x` and is non-negative. -/
def isBlockHere (g : Grid) (x y : ℤ) : Bool :=
  if x < 0 ∨ y < 0 ∨ 10 ≤ x ∨ 21 ≤ y then true
  else decide ((rowAt g y &&& (7 <<< (29 - 3 * x.toNat))) ≠ 0)

/-- Source `QuadtrisGame.getBlockData(x, y)`: unpacks the 3-bit value of a
cell.  The source reads `gridData[y]` with no bounds check; callers pass
`y ∈ [0, 21)` (here enforced by `Fin 21`) and `x ∈ [0, 9]`. -/
def getBlockData (g : Grid) (x : ℤ) (y : Fin 21) : ℕ :=
  (g y &&& (7 <<< (29 - 3 * x.toNat))) >>> (29 - 3 * x.toNat)

/-- Source `QuadtrisGame.#placeBlockHere(x, y, color)`: clears the 3-bit field
with `gridData[y] &= ~(0b111 << shift)` and ORs in `color << shift`.  The JS
32-bit complement `~m` is `m ^^^ (2^32 - 1)`.  A `Uint32Array` silently
ignores out-of-range writes, which the pointwise guard `↑i = y` realizes: an
out-of-range `y` matches no row and the grid is unchanged. -/
def placeBlockHere (g : Grid) (x y : ℤ) (color : ℕ) : Grid := fun i =>
  if (i.val : ℤ) = y then
    (g i &&& ((7 <<< (29 - 3 * x.toNat)) ^^^ (2 ^ 32 - 1))) |||
      (color <<< (29 - 3 * x.toNat))
  else g i

/-- Source `QuadtrisGame.clearRow(row)`: copies every row above `row` down one
and zeroes the top row. -/
def clearRow (g : Grid) (row : ℕ) : Grid := fun i =>
  if h : row ≤ i.val ∧ i.val < 20 then g ⟨i.val + 1, by omega⟩
  else if i.val = 20 then 0
  else g i

/-! ### Bit-level helper lemmas for the packed grid representation -/

theorem testBit_seven (j : ℕ) : (7 : ℕ).testBit j = decide (j < 3) := by
  have h7 : (7 : ℕ) = 2 ^ 3 - 1 := by norm_num
  rw [h7, Nat.testBit_two_pow_sub_one]

theorem testBit_of_lt_eight {c j : ℕ} (hc : c < 8) (hj : 3 ≤ j) :
    c.testBit j = false := by
  apply Nat.testBit_lt_two_pow
  calc c < 2 ^ 3 := hc
    _ ≤ 2 ^ j := Nat.pow_le_pow_right (by norm_num) hj

/-- Round-trip at the packed-word level: writing a 3-bit colour at shift `s`
and reading the same field back returns the colour. -/
theorem pack_roundtrip (row color s : ℕ) (hs : s ≤ 29) (hc : color < 8) :
    ((((row &&& ((7 <<< s) ^^^ (2 ^ 32 - 1))) ||| (color <<< s)) &&& (7 <<< s)) >>> s)
      = color := by
  apply Nat.eq_of_testBit_eq
  intro i
  simp only [Nat.testBit_shiftRight, Nat.testBit_and, Nat.testBit_or, Nat.testBit_xor,
    Nat.testBit_shiftLeft, Nat.testBit_two_pow_sub_one, Nat.add_sub_cancel_left,
    ge_iff_le, Nat.le_add_right, decide_True, Bool.true_and, testBit_seven]
  by_cases hi : i < 3
  · have h32 : s + i < 32 := by omega
    simp [hi, h32]
  · have h3 : 3 ≤ i := by omega
    simp [hi, testBit_of_lt_eight hc h3]

/-- Writing a field at shift `s` does not disturb a disjoint field at shift
`t` of the same word. -/
theorem pack_preserve (row color s t : ℕ) (hs : s ≤ 29) (ht : t ≤ 29)
    (hdisj : t + 3 ≤ s ∨ s + 3 ≤ t) (hc : color < 8) :
    ((((row &&& ((7 <<< s) ^^^ (2 ^ 32 - 1))) ||| (color <<< s)) &&& (7 <<< t)) >>> t)
      = ((row &&& (7 <<< t)) >>> t) := by
  apply Nat.eq_of_testBit_eq
  intro i
  simp only [Nat.testBit_shiftRight, Nat.testBit_and, Nat.testBit_or, Nat.testBit_xor,
    Nat.testBit_shiftLeft, Nat.testBit_two_pow_sub_one, Nat.add_sub_cancel_left,
    ge_iff_le, Nat.le_add_right, decide_True, Bool.true_and, testBit_seven]
  by_cases hi : i < 3
  · have h32 : t + i < 32 := by omega
    rcases hdisj with h | h
    · simp [hi, h32, show ¬ s ≤ t + i by omega]
    · simp [hi, h32, show s ≤ t + i by omega, show ¬ (t + i - s < 3) by omega,
        testBit_of_lt_eight hc (show 3 ≤ t + i - s by omega)]
  · simp [hi]

/-- The updated word stays inside 32 bits. -/
theorem pack_lt (row color s : ℕ) (hs : s ≤ 29) (hc : color < 8) :
    ((row &&& ((7 <<< s) ^^^ (2 ^ 32 - 1))) ||| (color <<< s)) < 2 ^ 32 := by
  apply Nat.or_lt_two_pow
  · exact Nat.and_lt_two_pow row
      (Nat.xor_lt_two_pow
        (by
          rw [Nat.shiftLeft_eq]
          calc 7 * 2 ^ s ≤ 7 * 2 ^ 29 :=
                Nat.mul_le_mul_left 7 (Nat.pow_le_pow_right (by norm_num) hs)
            _ < 2 ^ 32 := by norm_num)
        (by norm_num))
  · rw [Nat.shiftLeft_eq]
    calc color * 2 ^ s ≤ 7 * 2 ^ 29 :=
          Nat.mul_le_mul (by omega) (Nat.pow_le_pow_right (by norm_num) hs)
      _ < 2 ^ 32 := by norm_num

theorem mod_four_eq_zero_iff_testBit (n : ℕ) :
    n % 4 = 0 ↔ (n.testBit 0 = false ∧ n.testBit 1 = false) := by
  have h1 : n.testBit 1 = decide (n / 2 % 2 = 1) := by
    rw [show (1 : ℕ) = 0 + 1 from rfl, Nat.testBit_add_one, Nat.testBit_zero]
  rw [Nat.testBit_zero, h1]
  simp only [decide_eq_false_iff_not]
  omega

/-- Writing a field at shift `s ≥ 2` keeps the two trailing unused bits zero. -/
theorem pack_mod4 (row color s : ℕ) (hs2 : 2 ≤ s) (hrow : row % 4 = 0) :
    ((row &&& ((7 <<< s) ^^^ (2 ^ 32 - 1))) ||| (color <<< s)) % 4 = 0 := by
  rw [mod_four_eq_zero_iff_testBit] at hrow ⊢
  obtain ⟨h0, h1⟩ := hrow
  constructor
  · simp only [Nat.testBit_or, Nat.testBit_and, Nat.testBit_xor, Nat.testBit_shiftLeft,
      Nat.testBit_two_pow_sub_one, ge_iff_le]
    simp [h0, show ¬ s ≤ 0 by omega]
  · simp only [Nat.testBit_or, Nat.testBit_and, Nat.testBit_xor, Nat.testBit_shiftLeft,
      Nat.testBit_two_pow_sub_one, ge_iff_le]
    simp [h1, show ¬ s ≤ 1 by omega]

/-- C3: for all `x ∈ [0,9]`, `y ∈ [0,21)` and `color ∈ [0,7]`, after setting
cell `(x, y)` to `color` in the packed 32-bit-per-row grid, reading cell
`(x, y)` returns exactly `color`; no other cell of the row and no other row
changes; and the row word stays below `2^32` with its 2 trailing bits zero,
so only bits inside the 30-bit window of each row word are ever non-zero. -/
theorem grid_pack_roundtrip (g : Grid) (x : ℤ) (y : Fin 21) (color : ℕ)
    (hx0 : 0 ≤ x) (hx9 : x ≤ 9) (hc : color ≤ 7) :
    getBlockData (placeBlockHere g x (y.val : ℤ) color) x y = color
    ∧ (∀ x' : ℤ, 0 ≤ x' → x' ≤ 9 → x' ≠ x →
        getBlockData (placeBlockHere g x (y.val : ℤ) color) x' y = getBlockData g x' y)
    ∧ (∀ y' : Fin 21, y' ≠ y → placeBlockHere g x (y.val : ℤ) color y' = g y')
    ∧ placeBlockHere g x (y.val : ℤ) color y < 2 ^ 32
    ∧ (g y % 4 = 0 → placeBlockHere g x (y.val : ℤ) color y % 4 = 0) := by
  have hrow : placeBlockHere g x (y.val : ℤ) color y =
      (g y &&& ((7 <<< (29 - 3 * x.toNat)) ^^^ (2 ^ 32 - 1))) |||
        (color <<< (29 - 3 * x.toNat)) := by
    simp [placeBlockHere]
  have hs : 29 - 3 * x.toNat ≤ 29 := by omega
  have hc8 : color < 8 := by omega
  refine ⟨?_, ?_, ?_, ?_, ?_⟩
  · rw [getBlockData, hrow]
    exact pack_roundtrip _ _ _ hs hc8
  · intro x' h0 h9 hne
    rw [getBlockData, getBlockData, hrow]
    exact pack_preserve _ _ _ _ hs (by omega) (by omega) hc8
  · intro y' hne
    have hvals : ¬ ((y'.val : ℤ) = (y.val : ℤ)) := by
      intro h
      exact hne (Fin.ext (by exact_mod_cast h))
    simp [placeBlockHere, hvals]
  · rw [hrow]
    exact pack_lt _ _ _ hs hc8
  · intro h4
    rw [hrow]
    exact pack_mod4 _ _ _ (by omega) h4

/-- Witness for `grid_pack_roundtrip` at `x = 2`, `y = 5`, `color = 6` on the
empty grid. -/
theorem grid_pack_roundtrip_witness :
    getBlockData (placeBlockHere (fun _ => 0) 2 ((5 : Fin 21).val : ℤ) 6) 2 5 = 6
    ∧ getBlockData (placeBlockHere (fun _ => 0) 2 ((5 : Fin 21).val : ℤ) 6) 3 5
        = getBlockData (fun _ => 0) 3 5 := by
  have h := grid_pack_roundtrip (fun _ => 0) 2 5 6 (by decide) (by decide) (by decide)
  exact ⟨h.1, h.2.1 3 (by decide) (by decide) (by decide)⟩

/-! ### Piece model (`QuadPiece`) -/

/-- Coordinates of one block, `(column, row)` in grid space. -/
abbrev Coord := ℤ × ℤ

/-- The seven shape letters, in the order of the source's bag
(`['O','I','T','J','L','S','Z']` in `#refillPieceQueue`). -/
def basePieces : List Char := ['O', 'I', 'T', 'J', 'L', 'S', 'Z']

/-- Source `QuadPiece.pieces.O`. -/
def piecesO : Fin 4 → Coord := ![(1, 0), (1, 1), (2, 1), (2, 0)]

/-- Source `QuadPiece.pieces.I`. -/
def piecesI : Fin 4 → Coord := ![(1, 0), (0, 0), (2, 0), (3, 0)]

/-- Source `QuadPiece.pieces.L`. -/
def piecesL : Fin 4 → Coord := ![(1, 0), (0, 0), (2, 0), (2, 1)]

/-- Source `QuadPiece.pieces.J`. -/
def piecesJ : Fin 4 → Coord := ![(1, 0), (0, 0), (0, 1), (2, 0)]

/-- Source `QuadPiece.pieces.T`. -/
def piecesT : Fin 4 → Coord := ![(1, 0), (0, 0), (2, 0), (1, 1)]

/-- Source `QuadPiece.pieces.S`. -/
def piecesS : Fin 4 → Coord := ![(1, 0), (0, 0), (1, 1), (2, 1)]

/-- Source `QuadPiece.pieces.Z`. -/
def piecesZ : Fin 4 → Coord := ![(1, 0), (2, 0), (1, 1), (0, 1)]

/-- Source `QuadPiece.getBaseShape(shape)`: lookup with a degenerate all-zero
fallback for unknown shape ids. -/
def getBaseShape (shape : Char) : Fin 4 → Coord :=
  match shape with
  | 'O' => piecesO
  | 'I' => piecesI
  | 'L' => piecesL
  | 'J' => piecesJ
  | 'T' => piecesT
  | 'S' => piecesS
  | 'Z' => piecesZ
  | _ => ![(0, 0), (0, 0), (0, 0), (0, 0)]

/-- The falling piece (`class QuadPiece`).  The source keeps `rotationIndex`
in `[0, 3]` (initialized to 0 and only ever assigned values reduced `% 4`),
which `Fin 4` records. -/
structure QuadPiece where
  blocks : Fin 4 → Coord
  shape : Char
  rotationIndex : Fin 4
  active : Bool
  wasHeld : Bool

/-- Source `new QuadPiece(shape)`: the base shape translated by `(+3, +19)`
(top/middle of the grid), rotation index 0, active, not yet held. -/
def QuadPiece.spawn (shape : Char) : QuadPiece where
  blocks := fun i => ((getBaseShape shape i).1 + 3, (getBaseShape shape i).2 + 19)
  shape := shape
  rotationIndex := 0
  active := true
  wasHeld := false

/-- Source `QuadPiece.offsets.O`: a single-row kick table. -/
def offsetsO : List (Fin 4 → Coord) :=
  [![(0, 0), (0, -1), (-1, -1), (-1, 0)]]

/-- Source `QuadPiece.offsets.I`: the 5-row I-piece kick table. -/
def offsetsI : List (Fin 4 → Coord) :=
  [![(0, 0), (-1, 0), (-1, 1), (0, 1)],
   ![(-1, 0), (0, 0), (1, 1), (0, 1)],
   ![(2, 0), (0, 0), (-2, 1), (0, 1)],
   ![(-1, 0), (0, 1), (1, 0), (0, -1)],
   ![(2, 0), (0, -2), (-2, 0), (0, 2)]]

/-- Source `QuadPiece.offsets.OTHER`: the shared 5-row kick table. -/
def offsetsOther : List (Fin 4 → Coord) :=
  [![(0, 0), (0, 0), (0, 0), (0, 0)],
   ![(0, 0), (1, 0), (0, 0), (-1, 0)],
   ![(0, 0), (1, -1), (0, 0), (-1, -1)],
   ![(0, 0), (0, 2), (0, 0), (0, 2)],
   ![(0, 0), (1, 2), (0, 0), (-1, 2)]]

/-! ### Queue / bag generator -/

/-- One run of the `#refillPieceQueue` loop: `n` draws without replacement
from `ps`; each `Math.floor(Math.random() * ps.length)` is modelled as
`tape-head % ps.length`, so every tape denotes a possible draw sequence and
all draw sequences are covered.  The source loop runs exactly 7 times
starting from the full 7-element list, so it never sees an empty `ps`; the
unreachable `[]` case produces no draws. -/
def bagDraw : ℕ → List Char → List ℕ → List Char × List ℕ
  | 0, _, tape => ([], tape)
  | _ + 1, [], tape => ([], tape)
  | n + 1, p :: ps, tape =>
      let idx := tape.headD 0 % (p :: ps).length
      let choice := (p :: ps).get ⟨idx, Nat.mod_lt _ (by simp)⟩
      let rest := (p :: ps).eraseIdx idx
      let r := bagDraw n rest tape.tail
      (choice :: r.1, r.2)

/-- Source `QuadtrisGame.#refillPieceQueue()`: pushes the 7 shapes onto the
queue in a random order (pick a random remaining index, push, splice out). -/
def refillPieceQueue (q : List Char) (tape : List ℕ) : List Char × List ℕ :=
  let r := bagDraw basePieces.length basePieces tape
  (q ++ r.1, r.2)

/-- Iterated refills, one fresh tape per refill. -/
def refillNTimes : ℕ → List Char → List (List ℕ) → List Char
  | 0, q, _ => q
  | n + 1, q, tapes => refillNTimes n (refillPieceQueue q (tapes.headD [])).1 tapes.tail

theorem get_cons_eraseIdx_perm :
    ∀ (l : List Char) (idx : ℕ) (h : idx < l.length),
      (l.get ⟨idx, h⟩ :: l.eraseIdx idx).Perm l := by
  intro l
  induction l with
  | nil => intro idx h; simp at h
  | cons a t ih =>
      intro idx h
      match idx with
      | 0 => simp
      | idx + 1 =>
          have ht : idx < t.length := by simpa using h
          exact List.Perm.trans
            (List.Perm.swap a (t.get ⟨idx, ht⟩) (t.eraseIdx idx))
            (List.Perm.cons a (ih idx ht))

theorem bagDraw_perm :
    ∀ (n : ℕ) (ps : List Char) (tape : List ℕ), ps.length = n →
      ((bagDraw n ps tape).1).Perm ps := by
  intro n
  induction n with
  | zero =>
      intro ps tape hlen
      rw [List.length_eq_zero] at hlen
      subst hlen
      simp [bagDraw]
  | succ n ih =>
      intro ps tape hlen
      match ps with
      | [] => simp at hlen
      | p :: ps' =>
          rw [bagDraw]
          have hidx : tape.headD 0 % (p :: ps').length < (p :: ps').length :=
            Nat.mod_lt _ (by simp)
          have hrest : ((p :: ps').eraseIdx (tape.headD 0 % (p :: ps').length)).length = n := by
            rw [List.length_eraseIdx_of_lt hidx]
            omega
          refine List.Perm.trans (List.Perm.cons _ (ih _ tape.tail hrest)) ?_
          exact get_cons_eraseIdx_perm (p :: ps') _ hidx

/-- C9: every call of the queue refill appends exactly 7 shape ids forming a
permutation of the 7 shapes — each shape once, none twice — for every
possible sequence of random index choices; hence across any `n` refills each
shape is appended exactly `n` times. -/
theorem refill_appends_permutation (q : List Char) (tape : List ℕ) (n : ℕ)
    (tapes : List (List ℕ)) (c : Char) (hc : c ∈ basePieces) :
    (refillPieceQueue q tape).1.take q.length = q
    ∧ ((refillPieceQueue q tape).1.drop q.length).Perm basePieces
    ∧ ((refillPieceQueue q tape).1.drop q.length).length = 7
    ∧ ((refillPieceQueue q tape).1.drop q.length).Nodup
    ∧ ((refillPieceQueue q tape).1.drop q.length).count c = 1
    ∧ (refillNTimes n q tapes).count c = q.count c + n := by
  have hbag : ∀ t : List ℕ, ((bagDraw basePieces.length basePieces t).1).Perm basePieces :=
    fun t => bagDraw_perm _ _ t rfl
  have hdrop : (refillPieceQueue q tape).1.drop q.length
      = (bagDraw basePieces.length basePieces tape).1 := by
    simp [refillPieceQueue, List.drop_left]
  have htake : (refillPieceQueue q tape).1.take q.length = q := by
    simp [refillPieceQueue, List.take_left]
  have hcount1 : ∀ t : List ℕ, ((bagDraw basePieces.length basePieces t).1).count c = 1 := by
    intro t
    rw [(hbag t).count_eq]
    fin_cases hc <;> decide
  have hN : ∀ (n : ℕ) (q : List Char) (tapes : List (List ℕ)),
      (refillNTimes n q tapes).count c = q.count c + n := by
    intro n
    induction n with
    | zero => intro q tapes; simp [refillNTimes]
    | succ n ih =>
        intro q tapes
        rw [refillNTimes, ih]
        simp [refillPieceQueue, List.count_append]
        rw [hcount1]
        omega
  refine ⟨htake, ?_, ?_, ?_, ?_, hN n q tapes⟩
  · rw [hdrop]; exact hbag tape
  · rw [hdrop, (hbag tape).length_eq]; rfl
  · rw [hdrop]
    exact ((hbag tape).nodup_iff).2 (by decide)
  · rw [hdrop]; exact hcount1 tape

/-- Witness for `refill_appends_permutation` with the empty queue, the zero
tape, one refill and the shape `O`. -/
theorem refill_appends_permutation_witness :
    ((refillPieceQueue [] []).1.drop 0).count 'O' = 1
    ∧ (refillNTimes 1 [] [[]]).count 'O' = List.count 'O' [] + 1 := by
  have h := refill_appends_permutation [] [] 1 [[]] 'O' (by decide)
  exact ⟨h.2.2.2.2.1, h.2.2.2.2.2⟩

/-! ### Game state, input module and the tick orchestrator -/

/-- Grace-timer duration in seconds (`graceTimerDuration = 0.5`).  Timer
arithmetic is modelled over `ℚ`; every property proved about it (bounds,
boost cap, counter resets) is exact in any ordered field and does not depend
on binary floating-point rounding. -/
def graceTimerDuration : ℚ := 1 / 2

/-- Tick length in seconds (`gameTickTime = 1/30`). -/
def gameTickTime : ℚ := 1 / 30

/-- Source `pieceMap`: shape letter to 3-bit colour id.  A JS `Map.get` on an
unknown key yields `undefined`, which the grid's bitwise writes coerce to 0. -/
def pieceMap (shape : Char) : ℕ :=
  match shape with
  | 'Z' => 1
  | 'S' => 2
  | 'O' => 3
  | 'J' => 4
  | 'T' => 5
  | 'I' => 6
  | 'L' => 7
  | _ => 0

/-- Source `QuadtrisGame.levels`: ticks-per-gravity per speed level.  The
lookup is only reached with `speedLevel ∈ [1, 11]` (`#updateSpeedLevel`
clamps); other keys would be `undefined` in JS, modelled as 0. -/
def levels (speedLevel : ℕ) : ℕ :=
  match speedLevel with
  | 1 => 15
  | 2 => 14
  | 3 => 13
  | 4 => 12
  | 5 => 11
  | 6 => 10
  | 7 => 9
  | 8 => 7
  | 9 => 5
  | 10 => 3
  | 11 => 1
  | _ => 0

/-- The whole mutable state of a `QuadtrisGame` object: the public
`gameState` fields plus the private `#`-prefixed fields. -/
structure GameState where
  isPaused : Bool
  gameOver : Bool
  gridData : Grid
  playerPiece : QuadPiece
  pieceQueue : List Char
  heldPiece : Option Char
  ghostBlocks : Fin 4 → Coord
  linesCleared : ℕ
  speedLevel : ℕ
  ticksPerGravity : ℕ
  isStateChanged : Bool
  gravityTickCounter : ℕ
  graceTimer : ℚ
  graceBoostCount : ℕ
  timerRunning : Bool
  gameOverAnimation : Bool
  animationCount : Option ℕ
  rowCount : Option ℕ

/-- The `QuadtrisInput` module: the `actionStates` booleans (true while the
bound key is held) and the per-action tick counters maintained by
`updateCounters()`.  `SoftDrop` has no counter in the source. -/
structure QuadtrisInput where
  heldMoveLeft : Bool
  heldMoveRight : Bool
  heldRotateClockwise : Bool
  heldRotateAntiClockwise : Bool
  heldHardDrop : Bool
  heldSoftDrop : Bool
  heldHold : Bool
  heldPause : Bool
  counterMoveLeft : ℕ
  counterMoveRight : ℕ
  counterRotateClockwise : ℕ
  counterRotateAntiClockwise : ℕ
  counterHardDrop : ℕ
  counterHold : ℕ
  counterPause : ℕ

/-- Source `QuadtrisInput.updateCounters()`: each counter increments while
its action state is held, else resets to 0. -/
def updateCounters (inp : QuadtrisInput) : QuadtrisInput :=
  { inp with
    counterMoveLeft := if inp.heldMoveLeft then inp.counterMoveLeft + 1 else 0,
    counterMoveRight := if inp.heldMoveRight then inp.counterMoveRight + 1 else 0,
    counterRotateClockwise :=
      if inp.heldRotateClockwise then inp.counterRotateClockwise + 1 else 0,
    counterRotateAntiClockwise :=
      if inp.heldRotateAntiClockwise then inp.counterRotateAntiClockwise + 1 else 0,
    counterHardDrop := if inp.heldHardDrop then inp.counterHardDrop + 1 else 0,
    counterHold := if inp.heldHold then inp.counterHold + 1 else 0,
    counterPause := if inp.heldPause then inp.counterPause + 1 else 0 }

/-- Source `#movePlayerPiece(dx, dy)`: translate all 4 blocks, no checks. -/
def movePlayerPiece (s : GameState) (dx dy : ℤ) : GameState :=
  { s with playerPiece :=
      { s.playerPiece with blocks := fun i =>
          ((s.playerPiece.blocks i).1 + dx, (s.playerPiece.blocks i).2 + dy) } }

/-- Source `#startGraceTimer()`. -/
def startGraceTimer (s : GameState) : GameState :=
  { s with graceTimer := graceTimerDuration, timerRunning := true, graceBoostCount := 0 }

/-- Source `#updateGraceTimer(deltaTime)`. -/
def updateGraceTimer (s : GameState) (deltaTime : ℚ) : GameState :=
  { s with graceTimer := s.graceTimer - deltaTime }

/-- Source `#boostGraceTimer()`: while the timer runs and fewer than 30
boosts were used, raise the countdown by 0.5, capped at the full duration. -/
def boostGraceTimer (s : GameState) : GameState :=
  if s.timerRunning = true ∧ s.graceBoostCount < 30 then
    { s with graceTimer := min (s.graceTimer + 1 / 2) graceTimerDuration,
             graceBoostCount := s.graceBoostCount + 1 }
  else s

/-- Source `tryMovePiece(dx, dy)`: move only when all 4 destination cells are
unblocked; a horizontal move boosts the grace timer, a vertical move stops
it.  Returns (moved?, new state). -/
def tryMovePiece (s : GameState) (dx dy : ℤ) : Bool × GameState :=
  if (∀ i : Fin 4, isBlockHere s.gridData ((s.playerPiece.blocks i).1 + dx)
      ((s.playerPiece.blocks i).2 + dy) = false) then
    let s1 := movePlayerPiece s dx dy
    let s2 := if dx ≠ 0 then boostGraceTimer s1 else s1
    let s3 := if dy ≠ 0 then { s2 with timerRunning := false } else s2
    (true, s3)
  else (false, s)

/-- Source `isPlayerPieceValid()`. -/
def isPlayerPieceValid (s : GameState) : Bool :=
  decide (∀ i : Fin 4,
    isBlockHere s.gridData (s.playerPiece.blocks i).1 (s.playerPiece.blocks i).2 = false)

/-- The kick-test loop of `#resolveRotation`: up to 5 offset rows, first
success wins.  `none` models the JS `TypeError` raised when the loop indexes
past the end of the offset table (possible only for the 1-row O table);
`some none` is a completed loop with no success; `some (some bs)` the first
successful candidate. -/
def kickSearch (g : Grid) (tb : Fin 4 → Coord) (cur tgt : Fin 4) :
    List (Fin 4 → Coord) → ℕ → Option (Option (Fin 4 → Coord))
  | _, 0 => some none
  | [], _ + 1 => none
  | row :: rest, n + 1 =>
      let off : Coord := ((row cur).1 - (row tgt).1, (row cur).2 - (row tgt).2)
      let cand : Fin 4 → Coord := fun j => ((tb j).1 + off.1, (tb j).2 + off.2)
      if (∀ j : Fin 4, isBlockHere g (cand j).1 (cand j).2 = false) then
        some (some cand)
      else kickSearch g tb cur tgt rest n

/-- The target rotation index of `#resolveRotation`: the source computes
`(idx + 4 + (clockwise ? 1 : -1)) % 4`, written here with `+3 ≡ -1 (mod 4)`
since the index is a natural number. -/
def targetIdx (r : Fin 4) (clockwise : Bool) : Fin 4 :=
  ⟨(r.val + 4 + (if clockwise then 1 else 3)) % 4, Nat.mod_lt _ (by norm_num)⟩

/-- The pure-rotation step of `#resolveRotation`: each block moved to sample
space relative to block 0, rotated (`xMod * y, yMod * x` with
`xMod = 1, yMod = -1` for clockwise and `xMod = -1, yMod = 1` for
counterclockwise), and moved back to game space. -/
def rotatedTestBlocks (p : QuadPiece) (clockwise : Bool) : Fin 4 → Coord := fun i =>
  ((if clockwise then (1 : ℤ) else -1) * ((p.blocks i).2 - (p.blocks 0).2) + (p.blocks 0).1,
   (if clockwise then (-1 : ℤ) else 1) * ((p.blocks i).1 - (p.blocks 0).1) + (p.blocks 0).2)

/-- The `switch` of `#resolveRotation` selecting the kick table. -/
def offsetTableFor (shape : Char) : List (Fin 4 → Coord) :=
  match shape with
  | 'O' => offsetsO
  | 'I' => offsetsI
  | _ => offsetsOther

/-- Source `#resolveRotation(clockwise)`: rotate the 4 blocks ±90° about
block 0, pick the shape's kick table and try up to 5 offsets
`row[current] - row[target]`, committing the first valid candidate together
with the new rotation index. -/
def resolveRotation (s : GameState) (clockwise : Bool) : Option (Bool × GameState) :=
  let p := s.playerPiece
  match kickSearch s.gridData (rotatedTestBlocks p clockwise) p.rotationIndex
      (targetIdx p.rotationIndex clockwise) (offsetTableFor p.shape) 5 with
  | none => none
  | some none => some (false, s)
  | some (some cand) =>
      some (true, { s with playerPiece :=
        { p with blocks := cand, rotationIndex := targetIdx p.rotationIndex clockwise } })

/-- Source `tryRotatePiece(clockwise)`: on success, boost the grace timer. -/
def tryRotatePiece (s : GameState) (clockwise : Bool) : Option (Bool × GameState) :=
  (resolveRotation s clockwise).map fun r =>
    if r.1 then (r.1, boostGraceTimer r.2) else r

/-- Whether a ghost block has a blocked cell directly below (the collision
test of the descent loop in `#updateGhostProjections`). -/
def ghostCollideBelow (g : Grid) (b : Fin 4 → Coord) : Bool :=
  decide (∃ i : Fin 4, isBlockHere g (b i).1 ((b i).2 - 1) = true)

/-- Move all 4 ghost blocks down one row. -/
def ghostDown (b : Fin 4 → Coord) : Fin 4 → Coord := fun i => ((b i).1, (b i).2 - 1)

/-- Fuelled form of the descent loop in `#updateGhostProjections`.  The loop
iterates at most `(b 0).2.toNat` times: a pass requires every cell below to
be unblocked, in particular in bounds (`y - 1 ≥ 0`), so block 0's row
strictly decreases while staying non-negative (`ghost_hard_drop_terminate`
proves the loop exits within this fuel, so this equals the source's
unbounded `while`). -/
def ghostAux (g : Grid) : ℕ → (Fin 4 → Coord) → (Fin 4 → Coord)
  | 0, b => b
  | fuel + 1, b => if ghostCollideBelow g b then b else ghostAux g fuel (ghostDown b)

/-- Source `#updateGhostProjections()`: copy the player blocks and move them
down until a cell below is blocked. -/
def updateGhostProjections (s : GameState) : GameState :=
  { s with ghostBlocks :=
      ghostAux s.gridData ((s.playerPiece.blocks 0).2.toNat + 1) s.playerPiece.blocks }

/-- Fuelled form of the `while (this.tryMovePiece(0, -1)) {}` loop of
`hardDropPlayerPiece`; same termination bound as the ghost descent. -/
def hardDropAux : ℕ → GameState → GameState
  | 0, s => s
  | fuel + 1, s =>
      let r := tryMovePiece s 0 (-1)
      if r.1 then hardDropAux fuel r.2 else r.2

/-- Source `hardDropPlayerPiece()`. -/
def hardDropPlayerPiece (s : GameState) : GameState :=
  hardDropAux ((s.playerPiece.blocks 0).2.toNat + 1) s

/-- Source `#depositPlayerPiece()`: write the 4 blocks into the grid with the
piece's colour. -/
def depositPlayerPiece (s : GameState) : GameState :=
  let g' := (List.finRange 4).foldl
    (fun g i => placeBlockHere g (s.playerPiece.blocks i).1
      (s.playerPiece.blocks i).2 (pieceMap s.playerPiece.shape)) s.gridData
  { s with gridData := g' }

/-- Whether row `y` is fully occupied (the source tests all 10 columns with
`isBlockHere`). -/
def fullRow (g : Grid) (y : ℕ) : Bool :=
  decide (∀ x : Fin 10, isBlockHere g (x.val : ℤ) (y : ℤ) = true)

/-- Fuelled form of the `#resolveLineClears` scan (the source loop re-visits
the same row index after a clear via `y--`).  The loop runs at most 42
iterations: the row index only ever advances, at most 21 times, and each
clearing iteration removes one of the at most 21 non-empty rows, so fuel 43
is never exhausted. -/
def lineClearAux : ℕ → ℕ → Grid → ℕ → Grid × ℕ
  | 0, _, g, lines => (g, lines)
  | fuel + 1, y, g, lines =>
      if y < 21 then
        if fullRow g y then lineClearAux fuel y (clearRow g y) (lines + 1)
        else lineClearAux fuel (y + 1) g lines
      else (g, lines)

/-- Source `#resolveLineClears()`. -/
def resolveLineClears (s : GameState) : GameState :=
  let r := lineClearAux 43 0 s.gridData s.linesCleared
  { s with gridData := r.1, linesCleared := r.2 }

/-- Source `#updateSpeedLevel()`. -/
def updateSpeedLevel (s : GameState) : GameState :=
  let sl := min (s.linesCleared / 10 + 1) 11
  { s with speedLevel := sl, ticksPerGravity := levels sl }

/-- Source `#grabNextPiece()`: pop the queue front, refill when fewer than 7
remain, spawn the new piece and check for game over.  An empty queue would
give `undefined` in JS; the placeholder `'?'` behaves identically downstream
(unknown shapes hit every lookup's default branch), and the source never
reaches this with an empty queue. -/
def grabNextPiece (s : GameState) (tape : List ℕ) : GameState × List ℕ :=
  let nextPiece := s.pieceQueue.headD '?'
  let q1 := s.pieceQueue.tail
  let r := if q1.length < 7 then refillPieceQueue q1 tape else (q1, tape)
  let s1 := { s with pieceQueue := r.1, playerPiece := QuadPiece.spawn nextPiece }
  if isPlayerPieceValid s1 then (s1, r.2)
  else
    let deadPiece := { s1.playerPiece with active := false }
    ({ s1 with playerPiece := deadPiece, gameOverAnimation := true }, r.2)

/-- Source `finishWithPiece()`: deposit, draw the next piece, stop the grace
timer, resolve clears, and recompute the speed level if lines were cleared. -/
def finishWithPiece (s : GameState) (tape : List ℕ) : GameState × List ℕ :=
  let previousLinesCleared := s.linesCleared
  let r := grabNextPiece (depositPlayerPiece s) tape
  let s4 := resolveLineClears { r.1 with timerRunning := false }
  (if s4.linesCleared ≠ previousLinesCleared then updateSpeedLevel s4 else s4, r.2)

/-- Source `holdPiece()`. -/
def holdPiece (s : GameState) (tape : List ℕ) : GameState × List ℕ :=
  match s.heldPiece with
  | none =>
      grabNextPiece { s with heldPiece := some s.playerPiece.shape } tape
  | some held =>
      if s.playerPiece.wasHeld then (s, tape)
      else
        let newPiece := { QuadPiece.spawn held with wasHeld := true }
        let s1 := { s with heldPiece := some s.playerPiece.shape, playerPiece := newPiece }
        if isPlayerPieceValid s1 then (s1, tape)
        else
          let deadPiece := { s1.playerPiece with active := false }
          ({ s1 with playerPiece := deadPiece, gameOverAnimation := true }, tape)

/-- Source `startNewGame()`: resets flags, grid, score counters and the
queue, then refills, spawns, reprojects the ghost and recomputes the speed
level.  The source does NOT touch `heldPiece`, the grace-timer fields or
`#gravityTickCounter`. -/
def startNewGame (s : GameState) (tape : List ℕ) : GameState :=
  let sA := { s with gameOver := false, isPaused := false, gameOverAnimation := false }
  let sB := { sA with animationCount := none, rowCount := none, gridData := fun _ => 0 }
  let s1 := { sB with linesCleared := 0, speedLevel := 0, pieceQueue := ([] : List Char) }
  let rq := refillPieceQueue s1.pieceQueue tape
  let rg := grabNextPiece { s1 with pieceQueue := rq.1 } rq.2
  updateSpeedLevel (updateGhostProjections rg.1)

/-- Source `pauseGame(pause)`. -/
def pauseGame (s : GameState) (pause : Bool) : GameState :=
  { s with isPaused := pause }

/-- The game-over-animation branch of `runTick` (lazily initializes the two
null counters, clears one row per 4 ticks, then raises the game-over flag). -/
def animationTick (s : GameState) : GameState :=
  match s.animationCount, s.rowCount with
  | some ac, some rc =>
      let s1 := { s with animationCount := some (ac + 1) }
      if rc < numRows ∧ (ac + 1) % 4 = 0 then
        let s2 := { s1 with gridData := clearRow s1.gridData 0, isStateChanged := true }
        { s2 with rowCount := some (rc + 1) }
      else if rc = numRows then
        { s1 with rowCount := some (rc + 1), gameOver := true }
      else s1
  | _, _ => { s with animationCount := some 0, rowCount := some 0 }

/-- End of a tick in which the piece moved: reproject the ghost and raise the
dirty flag. -/
def markMoved (s : GameState) : GameState :=
  { updateGhostProjections s with isStateChanged := true }

/-- The gravity block of `runTick`: increment the tick counter; when it
reaches `#ticksPerGravity`, attempt the forced one-cell drop, reset the
counter and, if the piece is at the bottom and the grace timer idle, start
the timer.  The boolean is this block's contribution to `pieceMoved`. -/
def gravityPhase (r : Bool × GameState) : Bool × GameState :=
  let gcount := r.2.gravityTickCounter + 1
  if r.2.ticksPerGravity ≤ gcount then
    let rg := tryMovePiece r.2 0 (-1)
    let sg := { rg.2 with gravityTickCounter := 0 }
    (rg.1, if rg.1 = false ∧ sg.timerRunning = false then startGraceTimer sg else sg)
  else (false, { r.2 with gravityTickCounter := gcount })

/-- The lock-timer block of `runTick`: while the grace timer runs, count it
down by one tick; when it has elapsed, lock the piece (`finishWithPiece`)
unless it can still move down. -/
def gracePhase (r : Bool × GameState) (tape : List ℕ) : Bool × GameState :=
  if r.2.timerRunning then
    let st := updateGraceTimer r.2 gameTickTime
    if st.graceTimer ≤ 0 then
      let rd := tryMovePiece st 0 (-1)
      (true, if rd.1 = false then (finishWithPiece rd.2 tape).1 else rd.2)
    else (false, st)
  else (false, r.2)

/-- The normal-play branch of `runTick` (no game-over animation, no hard
drop, no hold): soft drop, then rotation, then horizontal movement, then
gravity, then the lock timer, then the ghost/dirty-flag update if anything
moved. -/
def normalPlayTick (s : GameState) (inp1 : QuadtrisInput) (tape : List ℕ) :
    Option GameState :=
  let r1 := if inp1.heldSoftDrop then tryMovePiece s 0 (-1) else (false, s)
  let rotation : ℤ := (if inp1.counterRotateClockwise = 1 then 1 else 0)
    + (if inp1.counterRotateAntiClockwise = 1 then -1 else 0)
  let rot := if rotation ≠ 0 then tryRotatePiece r1.2 (decide (rotation = 1))
    else some (false, r1.2)
  match rot with
  | none => none
  | some r2 =>
      let movement : ℤ :=
        (if inp1.counterMoveLeft = 1 ∨ 5 < inp1.counterMoveLeft then -1 else 0)
        + (if inp1.counterMoveRight = 1 ∨ 5 < inp1.counterMoveRight then 1 else 0)
      let r3 := if movement ≠ 0 then tryMovePiece r2.2 movement 0 else (false, r2.2)
      let r4 := gravityPhase r3
      let r5 := gracePhase r4 tape
      let pieceMoved := r1.1 || r2.1 || r3.1 || r4.1 || r5.1
      some (if pieceMoved then markMoved r5.2 else r5.2)

/-- Source `runTick(inputMod)`: one tick.  The input module's
`updateCounters()` runs first.  The result is `none` only on the JS
`TypeError` path of `#resolveRotation` (O piece in an invalid position),
which normal play never reaches. -/
def runTick (s : GameState) (inp : QuadtrisInput) (tape : List ℕ) : Option GameState :=
  let inp1 := updateCounters inp
  if s.isPaused then some s
  else if s.gameOverAnimation then some (animationTick s)
  else if inp1.counterHardDrop = 1 then
    some (markMoved (finishWithPiece (hardDropPlayerPiece s) tape).1)
  else if inp1.counterHold = 1 then
    some (markMoved (holdPiece s tape).1)
  else normalPlayTick s inp1 tape

/-! ### C2: queue invariant -/

theorem bagDraw_length (tape : List ℕ) :
    (bagDraw basePieces.length basePieces tape).1.length = 7 :=
  (bagDraw_perm basePieces.length basePieces tape rfl).length_eq

theorem refill_length (q : List Char) (tape : List ℕ) :
    (refillPieceQueue q tape).1.length = q.length + 7 := by
  simp [refillPieceQueue, bagDraw_length]

/-- C2: immediately after any dequeue of the queue front (`#grabNextPiece`
pops `pieceQueue[0]` and replaces the player's piece), the queue holds at
least 7 entries: whenever removing the front leaves fewer than 7, the same
operation appends a whole 7-piece bag. -/
theorem dequeue_queue_length (s : GameState) (tape : List ℕ) :
    7 ≤ ((grabNextPiece s tape).1).pieceQueue.length := by
  have hq : ((grabNextPiece s tape).1).pieceQueue
      = (if s.pieceQueue.tail.length < 7
          then refillPieceQueue s.pieceQueue.tail tape
          else (s.pieceQueue.tail, tape)).1 := by
    simp only [grabNextPiece]
    split <;> split <;> rfl
  rw [hq]
  by_cases h : s.pieceQueue.tail.length < 7
  · rw [if_pos h, refill_length]
    omega
  · rw [if_neg h]
    show 7 ≤ s.pieceQueue.tail.length
    omega

/-! ### C6: grace-timer boost cap -/

/-- One event inside a single occupancy of the running grace timer: either a
boost attempt (a successful horizontal move or successful rotation calls
`#boostGraceTimer`) or a tick of `#updateGraceTimer(gameTickTime)`. -/
inductive GraceStep where
  | boost : GraceStep
  | tick : GraceStep
deriving DecidableEq

def applyGraceStep (s : GameState) : GraceStep → GameState
  | GraceStep.boost => boostGraceTimer s
  | GraceStep.tick => updateGraceTimer s gameTickTime

def runGraceSteps (steps : List GraceStep) (s : GameState) : GameState :=
  steps.foldl applyGraceStep s

/-- Number of boost attempts in a trace. -/
def boostAttempts (steps : List GraceStep) : ℕ := steps.count GraceStep.boost

theorem runGraceSteps_invariant :
    ∀ (steps : List GraceStep) (s : GameState) (k : ℕ),
      s.graceTimer ≤ graceTimerDuration → s.graceBoostCount = min k 30 →
      s.timerRunning = true →
      (runGraceSteps steps s).graceTimer ≤ graceTimerDuration
      ∧ (runGraceSteps steps s).graceBoostCount = min (k + boostAttempts steps) 30
      ∧ (runGraceSteps steps s).timerRunning = true := by
  intro steps
  induction steps with
  | nil =>
      intro s k h1 h2 h3
      exact ⟨h1, by simpa [boostAttempts] using h2, h3⟩
  | cons st rest ih =>
      intro s k h1 h2 h3
      match st with
      | GraceStep.tick =>
          have htick : (0 : ℚ) < gameTickTime := by norm_num [gameTickTime]
          have h := ih (updateGraceTimer s gameTickTime) k
            (show s.graceTimer - gameTickTime ≤ graceTimerDuration by linarith) h2 h3
          refine ⟨h.1, ?_, h.2.2⟩
          have hcnt : boostAttempts (GraceStep.tick :: rest) = boostAttempts rest := by
            simp [boostAttempts]
          rw [hcnt]
          exact h.2.1
      | GraceStep.boost =>
          by_cases hb : s.graceBoostCount < 30
          · have hcond : s.timerRunning = true ∧ s.graceBoostCount < 30 := ⟨h3, hb⟩
            have h := ih (boostGraceTimer s) (k + 1)
              (by rw [boostGraceTimer, if_pos hcond]; exact min_le_right _ _)
              (by rw [boostGraceTimer, if_pos hcond]
                  show s.graceBoostCount + 1 = min (k + 1) 30
                  omega)
              (by rw [boostGraceTimer, if_pos hcond]; exact h3)
            refine ⟨h.1, ?_, h.2.2⟩
            have hcnt : boostAttempts (GraceStep.boost :: rest) = boostAttempts rest + 1 := by
              simp [boostAttempts, List.count_cons]
            have h21 : (runGraceSteps (GraceStep.boost :: rest) s).graceBoostCount
                = min (k + 1 + boostAttempts rest) 30 := h.2.1
            rw [hcnt]
            omega
          · have hcond : ¬ (s.timerRunning = true ∧ s.graceBoostCount < 30) := by
              intro hc; exact hb hc.2
            have hboost : boostGraceTimer s = s := by
              rw [boostGraceTimer, if_neg hcond]
            have hstep : runGraceSteps (GraceStep.boost :: rest) s = runGraceSteps rest s := by
              show runGraceSteps rest (boostGraceTimer s) = runGraceSteps rest s
              rw [hboost]
            have h := ih s k h1 h2 h3
            rw [hstep]
            refine ⟨h.1, ?_, h.2.2⟩
            have hcnt : boostAttempts (GraceStep.boost :: rest) = boostAttempts rest + 1 := by
              simp [boostAttempts, List.count_cons]
            have h21 := h.2.1
            rw [hcnt]
            omega

/-- C6: starting the grace timer resets the boost count to 0; while the timer
runs, boosts never push the countdown above the full duration; at most 30
boosts take effect per occupancy of the running state, and once 30 boost
attempts have happened, any further boost attempt leaves the state (countdown
and boost count) entirely unchanged. -/
theorem grace_boost_cap (s : GameState) (steps : List GraceStep) :
    (startGraceTimer s).graceBoostCount = 0
    ∧ (runGraceSteps steps (startGraceTimer s)).graceTimer ≤ graceTimerDuration
    ∧ (runGraceSteps steps (startGraceTimer s)).graceBoostCount
        = min (boostAttempts steps) 30
    ∧ (30 ≤ boostAttempts steps →
        boostGraceTimer (runGraceSteps steps (startGraceTimer s))
          = runGraceSteps steps (startGraceTimer s)) := by
  have hstart : (startGraceTimer s).graceTimer ≤ graceTimerDuration := le_of_eq rfl
  have h := runGraceSteps_invariant steps (startGraceTimer s) 0 hstart rfl rfl
  refine ⟨rfl, h.1, by simpa using h.2.1, ?_⟩
  intro h30
  have hcount : (runGraceSteps steps (startGraceTimer s)).graceBoostCount = 30 := by
    have h21 := h.2.1
    omega
  rw [boostGraceTimer, if_neg]
  intro hc
  have := hc.2
  omega

/-- A concrete game state used by witnesses and counterexamples: empty grid,
an O piece at spawn, a full fresh queue, all timers idle. -/
def defaultState : GameState where
  isPaused := false
  gameOver := false
  gridData := fun _ => 0
  playerPiece := QuadPiece.spawn 'O'
  pieceQueue := ['I', 'T', 'J', 'L', 'S', 'Z', 'O']
  heldPiece := none
  ghostBlocks := fun _ => (0, 0)
  linesCleared := 0
  speedLevel := 1
  ticksPerGravity := 15
  isStateChanged := true
  gravityTickCounter := 0
  graceTimer := -1
  graceBoostCount := 0
  timerRunning := false
  gameOverAnimation := false
  animationCount := none
  rowCount := none

/-- Witness for `grace_boost_cap`: 31 boost attempts starting from a default
state; the 31st changes nothing. -/
theorem grace_boost_cap_witness :
    (runGraceSteps (List.replicate 31 GraceStep.boost) (startGraceTimer defaultState)).graceBoostCount
      = min (boostAttempts (List.replicate 31 GraceStep.boost)) 30
    ∧ boostGraceTimer
        (runGraceSteps (List.replicate 31 GraceStep.boost) (startGraceTimer defaultState))
      = runGraceSteps (List.replicate 31 GraceStep.boost) (startGraceTimer defaultState) := by
  have h := grace_boost_cap defaultState (List.replicate 31 GraceStep.boost)
  exact ⟨h.2.2.1, h.2.2.2 (by decide)⟩

/-! ### C1: `startNewGame` -/

theorem spawn_blocks_unblocked (c : Char) (i : Fin 4) :
    isBlockHere (fun _ => 0) ((QuadPiece.spawn c).blocks i).1
      ((QuadPiece.spawn c).blocks i).2 = false := by
  show isBlockHere (fun _ => 0) ((getBaseShape c i).1 + 3) ((getBaseShape c i).2 + 19) = false
  unfold getBaseShape
  split <;> (fin_cases i <;> decide)

/-- On the all-zero grid, `#grabNextPiece` takes its happy path: it pops the
queue front, refills if needed, and spawns a valid piece (no game over). -/
theorem grabNextPiece_zero (st : GameState) (tape : List ℕ)
    (hg : st.gridData = fun _ => 0) :
    grabNextPiece st tape =
      ({ st with
          pieceQueue := (if st.pieceQueue.tail.length < 7
            then refillPieceQueue st.pieceQueue.tail tape
            else (st.pieceQueue.tail, tape)).1,
          playerPiece := QuadPiece.spawn (st.pieceQueue.headD '?') },
        (if st.pieceQueue.tail.length < 7
          then refillPieceQueue st.pieceQueue.tail tape
          else (st.pieceQueue.tail, tape)).2) := by
  simp only [grabNextPiece]
  rw [if_pos]
  simp only [isPlayerPieceValid, decide_eq_true_eq]
  intro i
  show isBlockHere st.gridData ((QuadPiece.spawn (st.pieceQueue.headD '?')).blocks i).1
    ((QuadPiece.spawn (st.pieceQueue.headD '?')).blocks i).2 = false
  rw [hg]
  exact spawn_blocks_unblocked _ i

/-- C1 (amended): `startNewGame()` zeroes the grid, resets `linesCleared` to
0 and `speedLevel` to 1 (with 15 ticks per gravity), rebuilds a queue of at
least 7 pieces, spawns a fresh active piece at the documented spawn offset
(base shape translated by `(+3, +19)`, rotation index 0) and clears the
pause/game-over/animation flags — but it does NOT reset the held piece, the
grace-timer state (countdown, running flag, boost count) or the gravity tick
counter; those survive from the previous game. -/
theorem startNewGame_fresh (s : GameState) (tape : List ℕ) :
    (startNewGame s tape).gridData = (fun _ => 0)
    ∧ (startNewGame s tape).linesCleared = 0
    ∧ (startNewGame s tape).speedLevel = 1
    ∧ (startNewGame s tape).ticksPerGravity = 15
    ∧ 7 ≤ (startNewGame s tape).pieceQueue.length
    ∧ (startNewGame s tape).playerPiece
        = QuadPiece.spawn ((refillPieceQueue ([] : List Char) tape).1.headD '?')
    ∧ (∀ i : Fin 4, (startNewGame s tape).playerPiece.blocks i
        = ((getBaseShape ((startNewGame s tape).playerPiece.shape) i).1 + 3,
           (getBaseShape ((startNewGame s tape).playerPiece.shape) i).2 + 19))
    ∧ (startNewGame s tape).playerPiece.rotationIndex = 0
    ∧ (startNewGame s tape).playerPiece.active = true
    ∧ (startNewGame s tape).gameOver = false
    ∧ (startNewGame s tape).isPaused = false
    ∧ (startNewGame s tape).gameOverAnimation = false
    ∧ (startNewGame s tape).heldPiece = s.heldPiece
    ∧ (startNewGame s tape).timerRunning = s.timerRunning
    ∧ (startNewGame s tape).graceTimer = s.graceTimer
    ∧ (startNewGame s tape).graceBoostCount = s.graceBoostCount
    ∧ (startNewGame s tape).gravityTickCounter = s.gravityTickCounter := by
  have hq7 : (refillPieceQueue ([] : List Char) tape).1.length = 7 := by
    rw [refill_length]
    rfl
  have hgrab := grabNextPiece_zero
    { s with gameOver := false, isPaused := false, gameOverAnimation := false,
             animationCount := none, rowCount := none, gridData := fun _ => 0,
             linesCleared := 0, speedLevel := 0,
             pieceQueue := (refillPieceQueue ([] : List Char) tape).1 }
    (refillPieceQueue ([] : List Char) tape).2 rfl
  have htail : ((refillPieceQueue ([] : List Char) tape).1.tail).length < 7 := by
    rw [List.length_tail, hq7]
    omega
  rw [if_pos htail] at hgrab
  have hsn : startNewGame s tape =
      updateSpeedLevel (updateGhostProjections
        { s with gameOver := false, isPaused := false, gameOverAnimation := false,
                 animationCount := none, rowCount := none, gridData := fun _ => 0,
                 linesCleared := 0, speedLevel := 0,
                 pieceQueue := (refillPieceQueue
                   ((refillPieceQueue ([] : List Char) tape).1.tail)
                   (refillPieceQueue ([] : List Char) tape).2).1,
                 playerPiece := QuadPiece.spawn
                   ((refillPieceQueue ([] : List Char) tape).1.headD '?') }) := by
    simp only [startNewGame]
    rw [hgrab]
  rw [hsn]
  refine ⟨rfl, rfl, ?_, ?_, ?_, rfl, fun i => rfl, rfl, rfl, rfl, rfl, rfl, rfl, rfl,
    rfl, rfl, rfl⟩
  · simp [updateSpeedLevel, updateGhostProjections]
  · simp [updateSpeedLevel, updateGhostProjections, levels]
  show 7 ≤ ((refillPieceQueue ((refillPieceQueue ([] : List Char) tape).1.tail)
    (refillPieceQueue ([] : List Char) tape).2).1).length
  rw [refill_length]
  omega

/-- A stale state left over from a previous game: a held T piece, a running
grace timer and a non-zero gravity counter. -/
def staleState : GameState :=
  { defaultState with heldPiece := some 'T', timerRunning := true,
                      graceBoostCount := 5, gravityTickCounter := 9 }

/-- Counterexample to C1 as stated: after `startNewGame()` the previous
game's held piece, running grace timer and gravity tick counter all survive,
so not every component of the previous game's state is reset. -/
theorem startNewGame_not_full_reset :
    (startNewGame staleState []).heldPiece = some 'T'
    ∧ (startNewGame staleState []).timerRunning = true
    ∧ (startNewGame staleState []).graceBoostCount = 5
    ∧ (startNewGame staleState []).gravityTickCounter = 9 := by
  refine ⟨?_, ?_, ?_, ?_⟩ <;> rfl

/-! ### C10: termination of the descent loops -/

theorem isBlockHere_neg_row (g : Grid) (x y : ℤ) (hy : y < 0) :
    isBlockHere g x y = true := by
  rw [isBlockHere, if_pos (Or.inr (Or.inl hy))]

theorem ghostAux_spec (g : Grid) :
    ∀ (fuel : ℕ) (b : Fin 4 → Coord), (b 0).2.toNat < fuel →
      ∃ k : ℕ, k ≤ (b 0).2.toNat
        ∧ ghostAux g fuel b = (fun i => ((b i).1, (b i).2 - (k : ℤ)))
        ∧ ghostCollideBelow g (fun i => ((b i).1, (b i).2 - (k : ℤ))) = true
        ∧ (∀ j : ℕ, j < k →
            ghostCollideBelow g (fun i => ((b i).1, (b i).2 - (j : ℤ))) = false) := by
  intro fuel
  induction fuel with
  | zero => intro b hb; omega
  | succ fuel ih =>
      intro b hb
      have hbeq : (fun i => ((b i).1, (b i).2 - ((0 : ℕ) : ℤ))) = b := by
        funext i
        simp
      by_cases hcol : ghostCollideBelow g b = true
      · refine ⟨0, Nat.zero_le _, ?_, ?_, fun j hj => absurd hj (by omega)⟩
        · show (if ghostCollideBelow g b = true then b else ghostAux g fuel (ghostDown b))
            = (fun i => ((b i).1, (b i).2 - ((0 : ℕ) : ℤ)))
          rw [if_pos hcol, hbeq]
        · rw [hbeq]
          exact hcol
      · have hcolf : ghostCollideBelow g b = false := by
          simpa using hcol
        have hnotcol : ∀ i : Fin 4, isBlockHere g (b i).1 ((b i).2 - 1) = false := by
          intro i
          by_contra h
          have hex : ghostCollideBelow g b = true := by
            rw [ghostCollideBelow]
            exact decide_eq_true ⟨i, by simpa using h⟩
          exact hcol hex
        have hy1 : 1 ≤ (b 0).2 := by
          by_contra hy
          have hneg : (b 0).2 - 1 < 0 := by omega
          have hblk := isBlockHere_neg_row g (b 0).1 ((b 0).2 - 1) hneg
          rw [hnotcol 0] at hblk
          exact Bool.false_ne_true hblk
        have hb' : ((ghostDown b) 0).2.toNat < fuel := by
          show ((b 0).2 - 1).toNat < fuel
          omega
        obtain ⟨k', hk'le, hkeq, hkcol, hkpre⟩ := ih (ghostDown b) hb'
        have hk'le2 : k' ≤ ((b 0).2 - 1).toNat := hk'le
        have hshift : (fun i => (((ghostDown b) i).1, ((ghostDown b) i).2 - (k' : ℤ)))
            = (fun i => ((b i).1, (b i).2 - ((k' + 1 : ℕ) : ℤ))) := by
          funext i
          show ((b i).1, (b i).2 - 1 - (k' : ℤ)) = ((b i).1, (b i).2 - ((k' + 1 : ℕ) : ℤ))
          have : (((k' + 1 : ℕ)) : ℤ) = (k' : ℤ) + 1 := by push_cast; ring
          rw [this]
          simp [Prod.ext_iff]
          ring
        refine ⟨k' + 1, by omega, ?_, ?_, ?_⟩
        · show (if ghostCollideBelow g b = true then b else ghostAux g fuel (ghostDown b))
            = (fun i => ((b i).1, (b i).2 - ((k' + 1 : ℕ) : ℤ)))
          rw [if_neg hcol, hkeq, hshift]
        · rw [← hshift]
          exact hkcol
        · intro j hj
          match j with
          | 0 =>
              rw [hbeq]
              exact hcolf
          | j + 1 =>
              have hpre := hkpre j (by omega)
              have hshiftj : (fun i => (((ghostDown b) i).1, ((ghostDown b) i).2 - (j : ℤ)))
                  = (fun i => ((b i).1, (b i).2 - ((j + 1 : ℕ) : ℤ))) := by
                funext i
                show ((b i).1, (b i).2 - 1 - (j : ℤ)) = ((b i).1, (b i).2 - ((j + 1 : ℕ) : ℤ))
                have : (((j + 1 : ℕ)) : ℤ) = (j : ℤ) + 1 := by push_cast; ring
                rw [this]
                simp [Prod.ext_iff]
                ring
              rw [← hshiftj]
              exact hpre

theorem tryMove_down_false (s : GameState) (h : (tryMovePiece s 0 (-1)).1 = false) :
    (tryMovePiece s 0 (-1)).2 = s := by
  rw [tryMovePiece] at h ⊢
  by_cases hc : (∀ i : Fin 4, isBlockHere s.gridData ((s.playerPiece.blocks i).1 + 0)
      ((s.playerPiece.blocks i).2 + -1) = false)
  · rw [if_pos hc] at h
    exact absurd h (by simp)
  · rw [if_neg hc]

theorem tryMove_down_true (s : GameState) (h : (tryMovePiece s 0 (-1)).1 = true) :
    (tryMovePiece s 0 (-1)).2.playerPiece.blocks
      = (fun i => ((s.playerPiece.blocks i).1, (s.playerPiece.blocks i).2 - 1))
    ∧ 1 ≤ (s.playerPiece.blocks 0).2 := by
  rw [tryMovePiece] at h ⊢
  by_cases hc : (∀ i : Fin 4, isBlockHere s.gridData ((s.playerPiece.blocks i).1 + 0)
      ((s.playerPiece.blocks i).2 + -1) = false)
  · rw [if_pos hc]
    constructor
    · funext i
      show ((s.playerPiece.blocks i).1 + 0, (s.playerPiece.blocks i).2 + -1)
        = ((s.playerPiece.blocks i).1, (s.playerPiece.blocks i).2 - 1)
      simp [Prod.ext_iff]
      ring
    · by_contra hy
      have hneg : (s.playerPiece.blocks 0).2 + -1 < 0 := by omega
      have hblk := isBlockHere_neg_row s.gridData ((s.playerPiece.blocks 0).1 + 0)
        ((s.playerPiece.blocks 0).2 + -1) hneg
      rw [hc 0] at hblk
      exact Bool.false_ne_true hblk
  · rw [if_neg hc] at h
    exact absurd h (by simp)

theorem hardDropAux_spec :
    ∀ (fuel : ℕ) (s : GameState), (s.playerPiece.blocks 0).2.toNat < fuel →
      ∃ k : ℕ, k ≤ (s.playerPiece.blocks 0).2.toNat
        ∧ (hardDropAux fuel s).playerPiece.blocks
            = (fun i => ((s.playerPiece.blocks i).1, (s.playerPiece.blocks i).2 - (k : ℤ)))
        ∧ (tryMovePiece (hardDropAux fuel s) 0 (-1)).1 = false := by
  intro fuel
  induction fuel with
  | zero => intro s hs; omega
  | succ fuel ih =>
      intro s hs
      by_cases h : (tryMovePiece s 0 (-1)).1 = true
      · obtain ⟨hblocks, hy1⟩ := tryMove_down_true s h
        have hy' : ((tryMovePiece s 0 (-1)).2.playerPiece.blocks 0).2.toNat < fuel := by
          rw [hblocks]
          show ((s.playerPiece.blocks 0).2 - 1).toNat < fuel
          omega
        obtain ⟨k', hk'le, hkeq, hkstop⟩ := ih (tryMovePiece s 0 (-1)).2 hy'
        have hk'le2 : k' ≤ ((s.playerPiece.blocks 0).2 - 1).toNat := by
          rw [hblocks] at hk'le
          exact hk'le
        have haux : hardDropAux (fuel + 1) s = hardDropAux fuel (tryMovePiece s 0 (-1)).2 := by
          show (if (tryMovePiece s 0 (-1)).1 = true
              then hardDropAux fuel (tryMovePiece s 0 (-1)).2
              else (tryMovePiece s 0 (-1)).2) = _
          rw [if_pos h]
        refine ⟨k' + 1, by omega, ?_, ?_⟩
        · rw [haux, hkeq, hblocks]
          funext i
          show ((s.playerPiece.blocks i).1, (s.playerPiece.blocks i).2 - 1 - (k' : ℤ))
            = ((s.playerPiece.blocks i).1, (s.playerPiece.blocks i).2 - ((k' + 1 : ℕ) : ℤ))
          have : (((k' + 1 : ℕ)) : ℤ) = (k' : ℤ) + 1 := by push_cast; ring
          rw [this]
          simp [Prod.ext_iff]
          ring
        · rw [haux]
          exact hkstop
      · have hfalse : (tryMovePiece s 0 (-1)).1 = false := by
          simpa using h
        have hs2 := tryMove_down_false s hfalse
        have haux : hardDropAux (fuel + 1) s = s := by
          show (if (tryMovePiece s 0 (-1)).1 = true
              then hardDropAux fuel (tryMovePiece s 0 (-1)).2
              else (tryMovePiece s 0 (-1)).2) = s
          rw [if_neg h, hs2]
        refine ⟨0, Nat.zero_le _, ?_, ?_⟩
        · rw [haux]
          funext i
          simp
        · rw [haux]
          exact hfalse

/-- C10: the collision test reports blocked for every cell with `y < 0`; the
ghost-projection descent loop exits within `(b 0).2.toNat` iterations, each
of which moves all 4 blocks down exactly one row, at the first position with
a blocked cell below; and the hard-drop loop likewise moves the piece down a
bounded number of rows and stops exactly when a further one-cell drop is
blocked — both loops are total. -/
theorem descent_terminates :
    (∀ (g : Grid) (x y : ℤ), y < 0 → isBlockHere g x y = true)
    ∧ (∀ (g : Grid) (b : Fin 4 → Coord), ∃ k : ℕ,
        k ≤ (b 0).2.toNat
        ∧ ghostAux g ((b 0).2.toNat + 1) b = (fun i => ((b i).1, (b i).2 - (k : ℤ)))
        ∧ ghostCollideBelow g (fun i => ((b i).1, (b i).2 - (k : ℤ))) = true
        ∧ (∀ j : ℕ, j < k →
            ghostCollideBelow g (fun i => ((b i).1, (b i).2 - (j : ℤ))) = false))
    ∧ (∀ s : GameState, ∃ k : ℕ,
        k ≤ (s.playerPiece.blocks 0).2.toNat
        ∧ (hardDropPlayerPiece s).playerPiece.blocks
            = (fun i => ((s.playerPiece.blocks i).1, (s.playerPiece.blocks i).2 - (k : ℤ)))
        ∧ (tryMovePiece (hardDropPlayerPiece s) 0 (-1)).1 = false) := by
  refine ⟨isBlockHere_neg_row, ?_, ?_⟩
  · intro g b
    exact ghostAux_spec g ((b 0).2.toNat + 1) b (by omega)
  · intro s
    exact hardDropAux_spec ((s.playerPiece.blocks 0).2.toNat + 1) s (by omega)

/-- Witness for `descent_terminates`: a negative row is blocked on the empty
grid, and hard-dropping the default state's piece terminates. -/
theorem descent_terminates_witness :
    isBlockHere (fun _ => 0) 3 (-1) = true
    ∧ (∃ k : ℕ, k ≤ (defaultState.playerPiece.blocks 0).2.toNat
        ∧ (hardDropPlayerPiece defaultState).playerPiece.blocks
            = (fun i => ((defaultState.playerPiece.blocks i).1,
                (defaultState.playerPiece.blocks i).2 - (k : ℤ)))
        ∧ (tryMovePiece (hardDropPlayerPiece defaultState) 0 (-1)).1 = false) :=
  ⟨descent_terminates.1 (fun _ => 0) 3 (-1) (by norm_num),
   descent_terminates.2.2 defaultState⟩

/-! ### C4: rotating an O piece never moves its blocks -/

/-- The single row of the O kick table (`QuadPiece.offsets.O[0]`), in a form
that evaluates by cases on the index value. -/
def rowO (i : Fin 4) : Coord :=
  match i.val with
  | 0 => (0, 0)
  | 1 => (0, -1)
  | 2 => (-1, -1)
  | _ => (-1, 0)

theorem offsetsO_eq : offsetsO = [rowO] := by
  have h : (![(0, 0), (0, -1), (-1, -1), (-1, 0)] : Fin 4 → Coord) = rowO := by
    funext i
    fin_cases i <;> rfl
  rw [offsetsO, h]

/-- Relative positions (to block 0) of a reachable O piece at each rotation
index, derived by applying the source's rotation-plus-O-offset step once per
index starting from the spawn layout. -/
def relO (r i : Fin 4) : Coord :=
  match r.val, i.val with
  | 0, 0 => (0, 0)
  | 0, 1 => (0, 1)
  | 0, 2 => (1, 1)
  | 0, _ => (1, 0)
  | 1, 0 => (0, 0)
  | 1, 1 => (1, 0)
  | 1, 2 => (1, -1)
  | 1, _ => (0, -1)
  | 2, 0 => (0, 0)
  | 2, 1 => (0, -1)
  | 2, 2 => (-1, -1)
  | 2, _ => (-1, 0)
  | _, 0 => (0, 0)
  | _, 1 => (-1, 0)
  | _, 2 => (-1, 1)
  | _, _ => (0, 1)

/-- The index permutation realized by one O rotation: clockwise maps block
`j` to block `j + 1`, counterclockwise to block `j + 3` (mod 4). -/
def oPerm (clockwise : Bool) (j : Fin 4) : Fin 4 :=
  j + (if clockwise then 1 else 3)

/-- Shape invariant of every reachable O piece: shape letter `O` and blocks
laid out as `relO` of the current rotation index around block 0. -/
def OShaped (p : QuadPiece) : Prop :=
  p.shape = 'O' ∧ ∀ i, p.blocks i
    = ((p.blocks 0).1 + (relO p.rotationIndex i).1,
       (p.blocks 0).2 + (relO p.rotationIndex i).2)

/-- O-piece states reachable through the source's own operations: spawning,
any translation (`#movePlayerPiece` is the only way the source translates
blocks) and any successful rotation against any grid. -/
inductive OReachable : QuadPiece → Prop where
  | spawn : OReachable (QuadPiece.spawn 'O')
  | move (s : GameState) (dx dy : ℤ) : OReachable s.playerPiece →
      OReachable (movePlayerPiece s dx dy).playerPiece
  | rotate (s : GameState) (cw : Bool) (s' : GameState) : OReachable s.playerPiece →
      resolveRotation s cw = some (true, s') → OReachable s'.playerPiece

/-- The algebraic heart of the O no-op: rotating a `relO` offset about the
pivot and applying the O kick offset lands on the `relO` offset of the
cyclically next block. -/
theorem O_kick_identity (P : Coord) (r : Fin 4) (cw : Bool) (j : Fin 4) :
    ((if cw then (1 : ℤ) else -1) * ((P.2 + (relO r j).2) - P.2) + P.1
        + ((rowO r).1 - (rowO (targetIdx r cw)).1),
     (if cw then (-1 : ℤ) else 1) * ((P.1 + (relO r j).1) - P.1) + P.2
        + ((rowO r).2 - (rowO (targetIdx r cw)).2))
    = (P.1 + (relO r (oPerm cw j)).1, P.2 + (relO r (oPerm cw j)).2) := by
  fin_cases r <;> cases cw <;> fin_cases j <;>
    (simp [relO, rowO, oPerm, targetIdx, Prod.ext_iff] <;> ring)

/-- Concrete fact: after one O rotation the blocks are again `relO`-shaped
around the new block 0, at the target rotation index. -/
theorem relO_target (r : Fin 4) (cw : Bool) (j : Fin 4) :
    (relO r (oPerm cw j)).1 = (relO r (oPerm cw 0)).1 + (relO (targetIdx r cw) j).1
    ∧ (relO r (oPerm cw j)).2 = (relO r (oPerm cw 0)).2 + (relO (targetIdx r cw) j).2 := by
  fin_cases r <;> cases cw <;> fin_cases j <;> decide

theorem kickSearch_one (g : Grid) (tb : Fin 4 → Coord) (cur tgt : Fin 4)
    (row : Fin 4 → Coord) :
    kickSearch g tb cur tgt [row] 5
      = (if (∀ j : Fin 4, isBlockHere g
            ((tb j).1 + ((row cur).1 - (row tgt).1))
            ((tb j).2 + ((row cur).2 - (row tgt).2)) = false)
         then some (some (fun j => ((tb j).1 + ((row cur).1 - (row tgt).1),
            (tb j).2 + ((row cur).2 - (row tgt).2))))
         else none) := rfl

/-- Behaviour of `#resolveRotation` on an O-shaped piece: the single kick
test either succeeds immediately — committing exactly the cyclic
re-labelling of the current blocks — or, when the current position is
blocked, the loop runs off the 1-row table and the JS code throws
(modelled `none`). -/
theorem resolveRotation_O_step (s : GameState) (cw : Bool)
    (hsh : s.playerPiece.shape = 'O')
    (hbl : ∀ i, s.playerPiece.blocks i
      = ((s.playerPiece.blocks 0).1 + (relO s.playerPiece.rotationIndex i).1,
         (s.playerPiece.blocks 0).2 + (relO s.playerPiece.rotationIndex i).2)) :
    (¬ (∀ i : Fin 4, isBlockHere s.gridData (s.playerPiece.blocks i).1
          (s.playerPiece.blocks i).2 = false) →
        resolveRotation s cw = none)
    ∧ ((∀ i : Fin 4, isBlockHere s.gridData (s.playerPiece.blocks i).1
          (s.playerPiece.blocks i).2 = false) →
        resolveRotation s cw = some (true,
          { s with playerPiece :=
            { s.playerPiece with
                blocks := fun j => s.playerPiece.blocks (oPerm cw j),
                rotationIndex := targetIdx s.playerPiece.rotationIndex cw } })) := by
  have htab : offsetTableFor s.playerPiece.shape = [rowO] := by
    rw [hsh, offsetTableFor, ← offsetsO_eq]
  have hcand : ∀ j : Fin 4,
      ((rotatedTestBlocks s.playerPiece cw j).1
          + ((rowO s.playerPiece.rotationIndex).1
            - (rowO (targetIdx s.playerPiece.rotationIndex cw)).1),
       (rotatedTestBlocks s.playerPiece cw j).2
          + ((rowO s.playerPiece.rotationIndex).2
            - (rowO (targetIdx s.playerPiece.rotationIndex cw)).2))
      = s.playerPiece.blocks (oPerm cw j) := by
    intro j
    rw [hbl (oPerm cw j)]
    show ((if cw then (1 : ℤ) else -1) * ((s.playerPiece.blocks j).2
            - (s.playerPiece.blocks 0).2) + (s.playerPiece.blocks 0).1
          + ((rowO s.playerPiece.rotationIndex).1
            - (rowO (targetIdx s.playerPiece.rotationIndex cw)).1),
        (if cw then (-1 : ℤ) else 1) * ((s.playerPiece.blocks j).1
            - (s.playerPiece.blocks 0).1) + (s.playerPiece.blocks 0).2
          + ((rowO s.playerPiece.rotationIndex).2
            - (rowO (targetIdx s.playerPiece.rotationIndex cw)).2)) = _
    rw [hbl j]
    exact O_kick_identity (s.playerPiece.blocks 0) s.playerPiece.rotationIndex cw j
  have hcand1 : ∀ j : Fin 4,
      (rotatedTestBlocks s.playerPiece cw j).1
          + ((rowO s.playerPiece.rotationIndex).1
            - (rowO (targetIdx s.playerPiece.rotationIndex cw)).1)
        = (s.playerPiece.blocks (oPerm cw j)).1 :=
    fun j => congrArg Prod.fst (hcand j)
  have hcand2 : ∀ j : Fin 4,
      (rotatedTestBlocks s.playerPiece cw j).2
          + ((rowO s.playerPiece.rotationIndex).2
            - (rowO (targetIdx s.playerPiece.rotationIndex cw)).2)
        = (s.playerPiece.blocks (oPerm cw j)).2 :=
    fun j => congrArg Prod.snd (hcand j)
  have hiff : (∀ j : Fin 4, isBlockHere s.gridData
        ((rotatedTestBlocks s.playerPiece cw j).1
          + ((rowO s.playerPiece.rotationIndex).1
            - (rowO (targetIdx s.playerPiece.rotationIndex cw)).1))
        ((rotatedTestBlocks s.playerPiece cw j).2
          + ((rowO s.playerPiece.rotationIndex).2
            - (rowO (targetIdx s.playerPiece.rotationIndex cw)).2)) = false)
      ↔ (∀ i : Fin 4, isBlockHere s.gridData (s.playerPiece.blocks i).1
          (s.playerPiece.blocks i).2 = false) := by
    constructor
    · intro hc i
      have hj := hc (i - (if cw then 1 else 3))
      rw [hcand1, hcand2] at hj
      have hoi : oPerm cw (i - (if cw then 1 else 3)) = i := by
        rw [oPerm]
        exact sub_add_cancel i _
      rw [hoi] at hj
      exact hj
    · intro hv j
      rw [hcand1 j, hcand2 j]
      exact hv _
  constructor
  · intro hnv
    simp only [resolveRotation]
    rw [htab, kickSearch_one, if_neg (fun hc => hnv (hiff.1 hc))]
  · intro hv
    simp only [resolveRotation]
    rw [htab, kickSearch_one, if_pos (hiff.2 hv)]
    have hfun : (fun j : Fin 4 =>
        ((rotatedTestBlocks s.playerPiece cw j).1
            + ((rowO s.playerPiece.rotationIndex).1
              - (rowO (targetIdx s.playerPiece.rotationIndex cw)).1),
         (rotatedTestBlocks s.playerPiece cw j).2
            + ((rowO s.playerPiece.rotationIndex).2
              - (rowO (targetIdx s.playerPiece.rotationIndex cw)).2)))
        = (fun j => s.playerPiece.blocks (oPerm cw j)) := by
      funext j
      exact hcand j
    rw [hfun]

theorem OReachable_shaped (p : QuadPiece) (h : OReachable p) : OShaped p := by
  induction h with
  | spawn =>
      refine ⟨rfl, ?_⟩
      intro i
      fin_cases i <;> decide
  | move s dx dy hr ih =>
      obtain ⟨hsh, hbl⟩ := ih
      refine ⟨hsh, ?_⟩
      intro i
      show ((s.playerPiece.blocks i).1 + dx, (s.playerPiece.blocks i).2 + dy)
        = (((s.playerPiece.blocks 0).1 + dx) + (relO s.playerPiece.rotationIndex i).1,
           ((s.playerPiece.blocks 0).2 + dy) + (relO s.playerPiece.rotationIndex i).2)
      rw [hbl i]
      show ((s.playerPiece.blocks 0).1 + (relO s.playerPiece.rotationIndex i).1 + dx,
            (s.playerPiece.blocks 0).2 + (relO s.playerPiece.rotationIndex i).2 + dy)
        = (((s.playerPiece.blocks 0).1 + dx) + (relO s.playerPiece.rotationIndex i).1,
           ((s.playerPiece.blocks 0).2 + dy) + (relO s.playerPiece.rotationIndex i).2)
      simp only [Prod.ext_iff]
      constructor <;> ring
  | rotate s cw s' hr heq ih =>
      obtain ⟨hsh, hbl⟩ := ih
      have step := resolveRotation_O_step s cw hsh hbl
      by_cases hv : (∀ i : Fin 4, isBlockHere s.gridData (s.playerPiece.blocks i).1
          (s.playerPiece.blocks i).2 = false)
      · have hres := step.2 hv
        rw [hres] at heq
        have hs' : s' = { s with playerPiece :=
            { s.playerPiece with
                blocks := fun j => s.playerPiece.blocks (oPerm cw j),
                rotationIndex := targetIdx s.playerPiece.rotationIndex cw } } := by
          have h1 := Option.some.inj heq
          exact (congrArg Prod.snd h1).symm
        subst hs'
        refine ⟨hsh, ?_⟩
        intro j
        show s.playerPiece.blocks (oPerm cw j) = _
        rw [hbl (oPerm cw j)]
        have h0 : (fun j => s.playerPiece.blocks (oPerm cw j)) 0
            = s.playerPiece.blocks (oPerm cw 0) := rfl
        have ht := relO_target s.playerPiece.rotationIndex cw j
        show ((s.playerPiece.blocks 0).1 + (relO s.playerPiece.rotationIndex (oPerm cw j)).1,
          (s.playerPiece.blocks 0).2 + (relO s.playerPiece.rotationIndex (oPerm cw j)).2)
          = ((s.playerPiece.blocks (oPerm cw 0)).1
              + (relO (targetIdx s.playerPiece.rotationIndex cw) j).1,
            (s.playerPiece.blocks (oPerm cw 0)).2
              + (relO (targetIdx s.playerPiece.rotationIndex cw) j).2)
        rw [hbl (oPerm cw 0)]
        simp only [Prod.ext_iff]
        constructor
        · show (s.playerPiece.blocks 0).1 + (relO s.playerPiece.rotationIndex (oPerm cw j)).1
            = (s.playerPiece.blocks 0).1 + (relO s.playerPiece.rotationIndex (oPerm cw 0)).1
              + (relO (targetIdx s.playerPiece.rotationIndex cw) j).1
          rw [ht.1]
          ring
        · show (s.playerPiece.blocks 0).2 + (relO s.playerPiece.rotationIndex (oPerm cw j)).2
            = (s.playerPiece.blocks 0).2 + (relO s.playerPiece.rotationIndex (oPerm cw 0)).2
              + (relO (targetIdx s.playerPiece.rotationIndex cw) j).2
          rw [ht.2]
          ring
      · have hres := step.1 hv
        rw [hres] at heq
        exact absurd heq (by simp)

/-- The set of absolute positions of a piece's 4 blocks. -/
def blockFinset (p : QuadPiece) : Finset Coord :=
  Finset.image p.blocks Finset.univ

theorem image_oPerm (f : Fin 4 → Coord) (cw : Bool) :
    Finset.image (fun j => f (oPerm cw j)) Finset.univ = Finset.image f Finset.univ := by
  ext z
  simp only [Finset.mem_image, Finset.mem_univ, true_and]
  constructor
  · rintro ⟨j, rfl⟩
    exact ⟨oPerm cw j, rfl⟩
  · rintro ⟨i, rfl⟩
    refine ⟨i - (if cw then 1 else 3), ?_⟩
    rw [oPerm, sub_add_cancel]

/-- C4: for every grid content and every reachable position of an O piece,
attempting to rotate it (clockwise or counterclockwise) succeeds on the
first kick test and never changes the piece's absolute block positions: the
pivot rotation followed by the O kick-table offset yields a candidate whose
4 blocks are set-equal to the piece's 4 blocks before the rotation. -/
theorem O_rotation_noop (s : GameState) (cw : Bool)
    (hreach : OReachable s.playerPiece)
    (hvalid : ∀ i : Fin 4, isBlockHere s.gridData (s.playerPiece.blocks i).1
      (s.playerPiece.blocks i).2 = false) :
    ∃ s', resolveRotation s cw = some (true, s')
      ∧ blockFinset s'.playerPiece = blockFinset s.playerPiece := by
  obtain ⟨hsh, hbl⟩ := OReachable_shaped _ hreach
  refine ⟨_, (resolveRotation_O_step s cw hsh hbl).2 hvalid, ?_⟩
  show Finset.image (fun j => s.playerPiece.blocks (oPerm cw j)) Finset.univ
    = Finset.image s.playerPiece.blocks Finset.univ
  exact image_oPerm s.playerPiece.blocks cw

/-- Witness for `O_rotation_noop`: the freshly spawned O piece on the empty
grid. -/
theorem O_rotation_noop_witness :
    ∃ s', resolveRotation defaultState true = some (true, s')
      ∧ blockFinset s'.playerPiece = blockFinset defaultState.playerPiece :=
  O_rotation_noop defaultState true OReachable.spawn (by decide)

/-! ### C5: a rejected rotation leaves the piece untouched -/

theorem kickSearch_ne_none :
    ∀ (table : List (Fin 4 → Coord)) (n : ℕ), n ≤ table.length →
    ∀ (g : Grid) (tb : Fin 4 → Coord) (cur tgt : Fin 4),
      kickSearch g tb cur tgt table n ≠ none := by
  intro table
  induction table with
  | nil =>
      intro n hn g tb cur tgt
      match n with
      | 0 => simp [kickSearch]
      | n + 1 => simp at hn
  | cons row rest ih =>
      intro n hn g tb cur tgt
      match n with
      | 0 => simp [kickSearch]
      | n + 1 =>
          show (if (∀ j : Fin 4, isBlockHere g
              ((tb j).1 + ((row cur).1 - (row tgt).1))
              ((tb j).2 + ((row cur).2 - (row tgt).2)) = false)
            then some (some fun j => ((tb j).1 + ((row cur).1 - (row tgt).1),
              (tb j).2 + ((row cur).2 - (row tgt).2)))
            else kickSearch g tb cur tgt rest n) ≠ none
          split
          · simp
          · exact ih n (by simpa using hn) g tb cur tgt

theorem offsetTableFor_length (shape : Char) (hsh : shape ≠ 'O') :
    (offsetTableFor shape).length = 5 := by
  unfold offsetTableFor
  split <;> simp_all [offsetsO, offsetsI, offsetsOther]

/-- C5 (amended): whenever a rotation attempt completes with a `false`
result, the piece's state — all 4 block coordinates and the rotation index —
is exactly what it was (never partially updated); and for every shape other
than O (whose kick tables have 5 rows) the attempt always completes, so "all
5 kick tests fail" does yield `false` with an unchanged piece.  For the O
piece itself the claim fails: its table has a single row, and when that test
fails the source loop reads past the table and throws (see
`rotation_reject_O_crash`). -/
theorem rotation_reject_unchanged (s : GameState) (cw : Bool) :
    (∀ s', resolveRotation s cw = some (false, s') → s' = s)
    ∧ (s.playerPiece.shape ≠ 'O' →
        ∃ b s', resolveRotation s cw = some (b, s') ∧ (b = false → s' = s)) := by
  constructor
  · intro s' heq
    simp only [resolveRotation] at heq
    cases hkk : kickSearch s.gridData (rotatedTestBlocks s.playerPiece cw)
        s.playerPiece.rotationIndex (targetIdx s.playerPiece.rotationIndex cw)
        (offsetTableFor s.playerPiece.shape) 5 with
    | none =>
        rw [hkk] at heq
        simp at heq
    | some o =>
        cases o with
        | none =>
            rw [hkk] at heq
            simp at heq
            exact heq.symm
        | some cand =>
            rw [hkk] at heq
            simp at heq
  · intro hsh
    have hlen : 5 ≤ (offsetTableFor s.playerPiece.shape).length := by
      rw [offsetTableFor_length _ hsh]
    cases hkk : kickSearch s.gridData (rotatedTestBlocks s.playerPiece cw)
        s.playerPiece.rotationIndex (targetIdx s.playerPiece.rotationIndex cw)
        (offsetTableFor s.playerPiece.shape) 5 with
    | none =>
        exact absurd hkk (kickSearch_ne_none _ 5 hlen s.gridData _ _ _)
    | some o =>
        cases o with
        | none =>
            refine ⟨false, s, ?_, fun _ => rfl⟩
            simp only [resolveRotation]
            rw [hkk]
        | some cand =>
            refine ⟨true,
              { s with playerPiece :=
                  { s.playerPiece with blocks := cand,
                                       rotationIndex :=
                                         targetIdx s.playerPiece.rotationIndex cw } },
              ?_, fun h => absurd h (by decide)⟩
            simp only [resolveRotation]
            rw [hkk]

/-- An O piece translated 20 rows below its spawn point: block 0 sits at row
`-1`, an invalid position. -/
def invalidOPiece : QuadPiece :=
  { QuadPiece.spawn 'O' with blocks := ![(4, -1), (4, 0), (5, 0), (5, -1)] }

/-- `defaultState` with the invalid O piece. -/
def invalidOState : GameState := { defaultState with playerPiece := invalidOPiece }

/-- Counterexample to C5 as stated: with the O piece in a position whose
cells are not all free, no kick test yields an unblocked placement, yet the
attempt does not return false with the piece unchanged — the loop indexes
past the 1-row O table, which in the JS source throws a `TypeError`
(modelled as `none`). -/
theorem rotation_reject_O_crash :
    resolveRotation invalidOState true = none
    ∧ isBlockHere invalidOState.gridData (invalidOState.playerPiece.blocks 0).1
        (invalidOState.playerPiece.blocks 0).2 = true := by
  constructor
  · rfl
  · decide

/-- A grid with every cell of every row occupied (each 3-bit field is 7). -/
def fullGrid : Grid := fun _ => 2 ^ 32 - 4

/-- `defaultState` with the full grid and a T piece: every kick test of any
rotation attempt fails. -/
def fullState : GameState :=
  { defaultState with gridData := fullGrid, playerPiece := QuadPiece.spawn 'T' }

/-- Witness for `rotation_reject_unchanged` on the full grid with a T piece:
the rotation completes, returns false, and leaves the piece unchanged. -/
theorem rotation_reject_unchanged_witness :
    fullState = fullState
    ∧ (∃ b s', resolveRotation fullState true = some (b, s')
        ∧ (b = false → s' = fullState)) :=
  ⟨(rotation_reject_unchanged fullState true).1 fullState rfl,
   (rotation_reject_unchanged fullState true).2 (by decide)⟩

/-! ### C7 and C8: what a normal-play tick does to the timer and the piece -/

theorem boost_timerRunning (s : GameState) :
    (boostGraceTimer s).timerRunning = s.timerRunning := by
  rw [boostGraceTimer]
  split <;> rfl

theorem boost_gravityTickCounter (s : GameState) :
    (boostGraceTimer s).gravityTickCounter = s.gravityTickCounter := by
  rw [boostGraceTimer]
  split <;> rfl

theorem boost_ticksPerGravity (s : GameState) :
    (boostGraceTimer s).ticksPerGravity = s.ticksPerGravity := by
  rw [boostGraceTimer]
  split <;> rfl

theorem boost_id_of_idle (s : GameState) (h : s.timerRunning = false) :
    boostGraceTimer s = s := by
  rw [boostGraceTimer, if_neg]
  intro hc
  rw [h] at hc
  exact absurd hc.1 (by decide)

theorem tryMove_timer_false (s : GameState) (dx dy : ℤ) (h : s.timerRunning = false) :
    (tryMovePiece s dx dy).2.timerRunning = false := by
  rw [tryMovePiece]
  split
  · dsimp only
    split
    · rfl
    · split
      · rw [boost_timerRunning]
        exact h
      · exact h
  · exact h

theorem tryMove_gravityTickCounter (s : GameState) (dx dy : ℤ) :
    (tryMovePiece s dx dy).2.gravityTickCounter = s.gravityTickCounter := by
  rw [tryMovePiece]
  split
  · dsimp only
    split
    · show (if dx ≠ 0 then boostGraceTimer (movePlayerPiece s dx dy)
        else movePlayerPiece s dx dy).gravityTickCounter = s.gravityTickCounter
      split
      · rw [boost_gravityTickCounter]
        rfl
      · rfl
    · split
      · rw [boost_gravityTickCounter]
        rfl
      · rfl
  · rfl

theorem tryMove_ticksPerGravity (s : GameState) (dx dy : ℤ) :
    (tryMovePiece s dx dy).2.ticksPerGravity = s.ticksPerGravity := by
  rw [tryMovePiece]
  split
  · dsimp only
    split
    · show (if dx ≠ 0 then boostGraceTimer (movePlayerPiece s dx dy)
        else movePlayerPiece s dx dy).ticksPerGravity = s.ticksPerGravity
      split
      · rw [boost_ticksPerGravity]
        rfl
      · rfl
    · split
      · rw [boost_ticksPerGravity]
        rfl
      · rfl
  · rfl

theorem markMoved_timerRunning (s : GameState) :
    (markMoved s).timerRunning = s.timerRunning := rfl

theorem ite_markMoved_timerRunning (c : Prop) [Decidable c] (x : GameState) :
    (if c then markMoved x else x).timerRunning = x.timerRunning := by
  split <;> rfl

/-- When none of pause, animation, hard drop and hold applies, `runTick` is
exactly the normal-play branch. -/
theorem runTick_normal (s : GameState) (inp : QuadtrisInput) (tape : List ℕ)
    (hpause : s.isPaused = false) (hanim : s.gameOverAnimation = false)
    (hhd : (updateCounters inp).counterHardDrop ≠ 1)
    (hhold : (updateCounters inp).counterHold ≠ 1) :
    runTick s inp tape = normalPlayTick s (updateCounters inp) tape := by
  simp only [runTick]
  simp [hpause, hanim, hhd, hhold]

theorem ite_pair_timer (c : Prop) [Decidable c] (x : GameState) (dx dy : ℤ)
    (h : x.timerRunning = false) :
    (if c then tryMovePiece x dx dy else (false, x)).2.timerRunning = false := by
  split
  · exact tryMove_timer_false _ _ _ h
  · exact h

theorem ite_pair_counters (c : Prop) [Decidable c] (x : GameState) (dx dy : ℤ) :
    (if c then tryMovePiece x dx dy else (false, x)).2.gravityTickCounter
        = x.gravityTickCounter
    ∧ (if c then tryMovePiece x dx dy else (false, x)).2.ticksPerGravity
        = x.ticksPerGravity := by
  split
  · exact ⟨tryMove_gravityTickCounter _ _ _, tryMove_ticksPerGravity _ _ _⟩
  · exact ⟨rfl, rfl⟩

theorem gravityGrace_timer_false (r : Bool × GameState) (tape : List ℕ)
    (ht : r.2.timerRunning = false)
    (hlt : r.2.gravityTickCounter + 1 < r.2.ticksPerGravity) :
    (gracePhase (gravityPhase r) tape).2.timerRunning = false := by
  have hgrav : gravityPhase r
      = (false, { r.2 with gravityTickCounter := r.2.gravityTickCounter + 1 }) := by
    rw [gravityPhase, if_neg (by omega)]
  rw [hgrav, gracePhase, if_neg]
  · exact ht
  · show ¬ ({ r.2 with gravityTickCounter := r.2.gravityTickCounter + 1 }.timerRunning = true)
    intro hc
    have hc' : r.2.timerRunning = true := hc
    rw [ht] at hc'
    exact absurd hc' (by decide)

/-- On a tick where the gravity counter does not reach the threshold and the
grace timer is idle, the normal-play branch leaves the timer idle — even if
a soft drop was attempted and failed. -/
theorem normalPlayTick_timer_idle (s : GameState) (inp1 : QuadtrisInput) (tape : List ℕ)
    (hcw : inp1.counterRotateClockwise ≠ 1)
    (hccw : inp1.counterRotateAntiClockwise ≠ 1)
    (hidle : s.timerRunning = false)
    (hlt : s.gravityTickCounter + 1 < s.ticksPerGravity) :
    ∀ s', normalPlayTick s inp1 tape = some s' → s'.timerRunning = false := by
  intro s' heq
  have hrot0 : ((if inp1.counterRotateClockwise = 1 then (1 : ℤ) else 0)
      + (if inp1.counterRotateAntiClockwise = 1 then -1 else 0)) = 0 := by
    rw [if_neg hcw, if_neg hccw]
    norm_num
  simp only [normalPlayTick] at heq
  rw [hrot0, if_neg (by norm_num : ¬ ((0 : ℤ) ≠ 0))] at heq
  dsimp only at heq
  have hx := Option.some.inj heq
  subst hx
  rw [ite_markMoved_timerRunning]
  apply gravityGrace_timer_false
  · exact ite_pair_timer _ _ _ _ (ite_pair_timer _ _ _ _ hidle)
  · rw [(ite_pair_counters _ _ _ _).1, (ite_pair_counters _ _ _ _).2,
      (ite_pair_counters _ _ _ _).1, (ite_pair_counters _ _ _ _).2]
    exact hlt

/-- On a tick where the gravity counter reaches the threshold, the piece
cannot fall and the timer is idle — with no other inputs — the normal-play
branch starts the grace timer. -/
theorem normalPlayTick_timer_starts (s : GameState) (inp1 : QuadtrisInput) (tape : List ℕ)
    (hsd : inp1.heldSoftDrop = false)
    (hcw : inp1.counterRotateClockwise ≠ 1)
    (hccw : inp1.counterRotateAntiClockwise ≠ 1)
    (hml : ¬ (inp1.counterMoveLeft = 1 ∨ 5 < inp1.counterMoveLeft))
    (hmr : ¬ (inp1.counterMoveRight = 1 ∨ 5 < inp1.counterMoveRight))
    (hidle : s.timerRunning = false)
    (hge : s.ticksPerGravity ≤ s.gravityTickCounter + 1)
    (hbot : (tryMovePiece s 0 (-1)).1 = false) :
    ∀ s', normalPlayTick s inp1 tape = some s' → s'.timerRunning = true := by
  intro s' heq
  have hrot0 : ((if inp1.counterRotateClockwise = 1 then (1 : ℤ) else 0)
      + (if inp1.counterRotateAntiClockwise = 1 then -1 else 0)) = 0 := by
    rw [if_neg hcw, if_neg hccw]
    norm_num
  have hmove0 : ((if inp1.counterMoveLeft = 1 ∨ 5 < inp1.counterMoveLeft then (-1 : ℤ) else 0)
      + (if inp1.counterMoveRight = 1 ∨ 5 < inp1.counterMoveRight then 1 else 0)) = 0 := by
    rw [if_neg hml, if_neg hmr]
    norm_num
  simp only [normalPlayTick] at heq
  rw [hsd, if_neg (by decide : ¬ (false = true))] at heq
  rw [hrot0, if_neg (by norm_num : ¬ ((0 : ℤ) ≠ 0))] at heq
  dsimp only at heq
  rw [hmove0, if_neg (by norm_num : ¬ ((0 : ℤ) ≠ 0))] at heq
  have hgrav : gravityPhase (false, s)
      = (false, startGraceTimer { s with gravityTickCounter := 0 }) := by
    rw [gravityPhase, if_pos hge]
    dsimp only
    rw [tryMove_down_false s hbot, hbot]
    rw [if_pos ⟨rfl, hidle⟩]
  rw [hgrav] at heq
  have hgrace : gracePhase (false, startGraceTimer { s with gravityTickCounter := 0 }) tape
      = (false, updateGraceTimer (startGraceTimer { s with gravityTickCounter := 0 })
          gameTickTime) := by
    rw [gracePhase]
    dsimp only
    rw [if_pos (show (startGraceTimer { s with gravityTickCounter := 0 }).timerRunning
      = true from rfl)]
    rw [if_neg]
    show ¬ (graceTimerDuration - gameTickTime ≤ 0)
    norm_num [graceTimerDuration, gameTickTime]
  rw [hgrace] at heq
  dsimp only at heq
  have hx := Option.some.inj heq
  subst hx
  rfl

/-- C7 (amended): during normal play with the grace timer idle, the timer
transitions idle→running only through the gravity branch: (a) on a tick
where the gravity counter has not reached `ticksPerGravity`, the timer stays
idle even when a soft-drop one-cell-down attempt fails (a failed soft drop
does not start it within that tick), and (b) on a tick where the counter
reaches the threshold and the forced downward attempt fails, the timer is
running at the end of the tick. -/
theorem grace_timer_starts_only_on_gravity (s : GameState) (inp : QuadtrisInput)
    (tape : List ℕ)
    (hpause : s.isPaused = false) (hanim : s.gameOverAnimation = false)
    (hhd : (updateCounters inp).counterHardDrop ≠ 1)
    (hhold : (updateCounters inp).counterHold ≠ 1)
    (hcw : (updateCounters inp).counterRotateClockwise ≠ 1)
    (hccw : (updateCounters inp).counterRotateAntiClockwise ≠ 1)
    (hidle : s.timerRunning = false) :
    (s.gravityTickCounter + 1 < s.ticksPerGravity →
      ∀ s', runTick s inp tape = some s' → s'.timerRunning = false)
    ∧ (inp.heldSoftDrop = false →
        ¬ ((updateCounters inp).counterMoveLeft = 1
            ∨ 5 < (updateCounters inp).counterMoveLeft) →
        ¬ ((updateCounters inp).counterMoveRight = 1
            ∨ 5 < (updateCounters inp).counterMoveRight) →
        s.ticksPerGravity ≤ s.gravityTickCounter + 1 →
        (tryMovePiece s 0 (-1)).1 = false →
        ∀ s', runTick s inp tape = some s' → s'.timerRunning = true) := by
  have hrn := runTick_normal s inp tape hpause hanim hhd hhold
  constructor
  · intro hlt s' heq
    rw [hrn] at heq
    exact normalPlayTick_timer_idle s (updateCounters inp) tape hcw hccw hidle hlt s' heq
  · intro hsd hml hmr hge hbot s' heq
    rw [hrn] at heq
    exact normalPlayTick_timer_starts s (updateCounters inp) tape hsd hcw hccw hml hmr
      hidle hge hbot s' heq

/-- The input module with nothing held and all counters 0. -/
def idleInput : QuadtrisInput where
  heldMoveLeft := false
  heldMoveRight := false
  heldRotateClockwise := false
  heldRotateAntiClockwise := false
  heldHardDrop := false
  heldSoftDrop := false
  heldHold := false
  heldPause := false
  counterMoveLeft := 0
  counterMoveRight := 0
  counterRotateClockwise := 0
  counterRotateAntiClockwise := 0
  counterHardDrop := 0
  counterHold := 0
  counterPause := 0

/-- An O piece resting on the floor. -/
def bottomPiece : QuadPiece :=
  { QuadPiece.spawn 'O' with blocks := ![(4, 0), (4, 1), (5, 1), (5, 0)] }

/-- `defaultState` with the piece on the floor, one tick before gravity. -/
def bottomState : GameState :=
  { defaultState with playerPiece := bottomPiece, gravityTickCounter := 14 }

/-- Witness for `grace_timer_starts_only_on_gravity`: a gravity tick with
the piece on the floor starts the timer. -/
theorem grace_timer_starts_witness :
    ∃ s', runTick bottomState idleInput [] = some s' ∧ s'.timerRunning = true := by
  have h := (grace_timer_starts_only_on_gravity bottomState idleInput [] rfl rfl
    (by decide) (by decide) (by decide) (by decide) rfl).2 rfl (by decide) (by decide)
    (by decide) (by decide)
  have hsome : (runTick bottomState idleInput []).isSome = true := by decide
  cases hr : runTick bottomState idleInput [] with
  | none =>
      rw [hr] at hsome
      exact absurd hsome (by decide)
  | some x => exact ⟨x, rfl, h x hr⟩

/-- The idle input with soft drop held. -/
def softDropInput : QuadtrisInput := { idleInput with heldSoftDrop := true }

/-- `defaultState` with the piece resting on the floor (gravity counter 0). -/
def restingState : GameState := { defaultState with playerPiece := bottomPiece }

/-- Counterexample to C7 as stated: a tick in which the soft-drop
one-cell-down attempt fails (the piece rests on the floor) while the timer
is idle, yet the timer has NOT transitioned to running by the end of that
tick (gravity only fires 14 ticks later). -/
theorem softdrop_does_not_start_timer :
    (runTick restingState softDropInput []).map (fun s' => s'.timerRunning) = some false
    ∧ (tryMovePiece restingState 0 (-1)).1 = false
    ∧ restingState.timerRunning = false
    ∧ restingState.gravityTickCounter + 1 < restingState.ticksPerGravity := by
  refine ⟨by decide, by decide, rfl, by decide⟩

theorem tryMove_horizontal_eq (s : GameState) (dx : ℤ) (hdx : dx ≠ 0)
    (hidle : s.timerRunning = false)
    (h : ∀ i : Fin 4, isBlockHere s.gridData ((s.playerPiece.blocks i).1 + dx)
        ((s.playerPiece.blocks i).2 + 0) = false) :
    tryMovePiece s dx 0 = (true, movePlayerPiece s dx 0) := by
  rw [tryMovePiece, if_pos h]
  dsimp only
  rw [if_neg (by norm_num : ¬ ((0 : ℤ) ≠ 0)), if_pos hdx,
    boost_id_of_idle (movePlayerPiece s dx 0) hidle]

/-- On a quiet non-gravity tick with an active horizontal intent and a free
destination, the normal-play branch shifts every block horizontally by the
net movement. -/
theorem normalPlayTick_moves_horizontal (s : GameState) (inp1 : QuadtrisInput)
    (tape : List ℕ) (dx : ℤ)
    (hsd : inp1.heldSoftDrop = false)
    (hcw : inp1.counterRotateClockwise ≠ 1)
    (hccw : inp1.counterRotateAntiClockwise ≠ 1)
    (hidle : s.timerRunning = false)
    (hlt : s.gravityTickCounter + 1 < s.ticksPerGravity)
    (hmove : ((if inp1.counterMoveLeft = 1 ∨ 5 < inp1.counterMoveLeft then (-1 : ℤ) else 0)
      + (if inp1.counterMoveRight = 1 ∨ 5 < inp1.counterMoveRight then 1 else 0)) = dx)
    (hdx : dx ≠ 0)
    (hfree : ∀ i : Fin 4, isBlockHere s.gridData ((s.playerPiece.blocks i).1 + dx)
        ((s.playerPiece.blocks i).2 + 0) = false) :
    ∃ s', normalPlayTick s inp1 tape = some s'
      ∧ ∀ i : Fin 4, (s'.playerPiece.blocks i).1 = (s.playerPiece.blocks i).1 + dx := by
  have hrot0 : ((if inp1.counterRotateClockwise = 1 then (1 : ℤ) else 0)
      + (if inp1.counterRotateAntiClockwise = 1 then -1 else 0)) = 0 := by
    rw [if_neg hcw, if_neg hccw]
    norm_num
  simp only [normalPlayTick]
  rw [hsd, if_neg (by decide : ¬ (false = true))]
  rw [hrot0, if_neg (by norm_num : ¬ ((0 : ℤ) ≠ 0))]
  dsimp only
  rw [hmove, if_pos hdx]
  rw [tryMove_horizontal_eq s dx hdx hidle hfree]
  have hgrav : gravityPhase (true, movePlayerPiece s dx 0)
      = (false, { movePlayerPiece s dx 0 with
          gravityTickCounter := (movePlayerPiece s dx 0).gravityTickCounter + 1 }) := by
    rw [gravityPhase, if_neg]
    show ¬ (s.ticksPerGravity ≤ s.gravityTickCounter + 1)
    omega
  rw [hgrav]
  have hgrace : gracePhase (false, { movePlayerPiece s dx 0 with
      gravityTickCounter := (movePlayerPiece s dx 0).gravityTickCounter + 1 }) tape
      = (false, { movePlayerPiece s dx 0 with
          gravityTickCounter := (movePlayerPiece s dx 0).gravityTickCounter + 1 }) := by
    rw [gracePhase, if_neg]
    intro hc
    have hc' : s.timerRunning = true := hc
    rw [hidle] at hc'
    exact absurd hc' (by decide)
  rw [hgrace]
  exact ⟨_, rfl, fun i => rfl⟩

/-- C8 (amended): continuous movement intents do NOT fire every tick while
held — `runTick` itself implements the delay-then-repeat cadence from the
caller-maintained hold counters.  On a quiet normal-play non-gravity tick
with exactly one direction active, a one-cell move in that direction is
attempted (and, with a free destination, performed) exactly when that
direction's counter equals 1 or exceeds 5; on ticks where the held
direction's counter is 2..5 no horizontal move is attempted (see the
counterexample `held_move_skips_ticks`). -/
theorem runTick_move_cadence (s : GameState) (inp : QuadtrisInput) (tape : List ℕ)
    (hpause : s.isPaused = false) (hanim : s.gameOverAnimation = false)
    (hhd : (updateCounters inp).counterHardDrop ≠ 1)
    (hhold : (updateCounters inp).counterHold ≠ 1)
    (hcw : (updateCounters inp).counterRotateClockwise ≠ 1)
    (hccw : (updateCounters inp).counterRotateAntiClockwise ≠ 1)
    (hsd : inp.heldSoftDrop = false)
    (hidle : s.timerRunning = false)
    (hlt : s.gravityTickCounter + 1 < s.ticksPerGravity) :
    (((updateCounters inp).counterMoveLeft = 1
        ∨ 5 < (updateCounters inp).counterMoveLeft) →
      ¬ ((updateCounters inp).counterMoveRight = 1
          ∨ 5 < (updateCounters inp).counterMoveRight) →
      (∀ i : Fin 4, isBlockHere s.gridData ((s.playerPiece.blocks i).1 + -1)
          ((s.playerPiece.blocks i).2 + 0) = false) →
      ∃ s', runTick s inp tape = some s'
        ∧ ∀ i : Fin 4, (s'.playerPiece.blocks i).1 = (s.playerPiece.blocks i).1 - 1)
    ∧ (((updateCounters inp).counterMoveRight = 1
        ∨ 5 < (updateCounters inp).counterMoveRight) →
      ¬ ((updateCounters inp).counterMoveLeft = 1
          ∨ 5 < (updateCounters inp).counterMoveLeft) →
      (∀ i : Fin 4, isBlockHere s.gridData ((s.playerPiece.blocks i).1 + 1)
          ((s.playerPiece.blocks i).2 + 0) = false) →
      ∃ s', runTick s inp tape = some s'
        ∧ ∀ i : Fin 4, (s'.playerPiece.blocks i).1 = (s.playerPiece.blocks i).1 + 1) := by
  have hrn := runTick_normal s inp tape hpause hanim hhd hhold
  constructor
  · intro hml hmr hfree
    have hmove : ((if (updateCounters inp).counterMoveLeft = 1
          ∨ 5 < (updateCounters inp).counterMoveLeft then (-1 : ℤ) else 0)
        + (if (updateCounters inp).counterMoveRight = 1
          ∨ 5 < (updateCounters inp).counterMoveRight then 1 else 0)) = -1 := by
      rw [if_pos hml, if_neg hmr]
      norm_num
    obtain ⟨s', h1, h2⟩ := normalPlayTick_moves_horizontal s (updateCounters inp) tape (-1)
      hsd hcw hccw hidle hlt hmove (by norm_num) hfree
    refine ⟨s', by rw [hrn]; exact h1, ?_⟩
    intro i
    rw [h2 i]
    ring
  · intro hmr hml hfree
    have hmove : ((if (updateCounters inp).counterMoveLeft = 1
          ∨ 5 < (updateCounters inp).counterMoveLeft then (-1 : ℤ) else 0)
        + (if (updateCounters inp).counterMoveRight = 1
          ∨ 5 < (updateCounters inp).counterMoveRight then 1 else 0)) = 1 := by
      rw [if_neg hml, if_pos hmr]
      norm_num
    obtain ⟨s', h1, h2⟩ := normalPlayTick_moves_horizontal s (updateCounters inp) tape 1
      hsd hcw hccw hidle hlt hmove (by norm_num) hfree
    exact ⟨s', by rw [hrn]; exact h1, h2⟩

/-- The idle input with the move-left key held for its 3rd consecutive tick
(counter 2 before the tick's `updateCounters`, 3 after). -/
def dasInput : QuadtrisInput := { idleInput with heldMoveLeft := true, counterMoveLeft := 2 }

/-- Counterexample to C8 as stated: moveLeft is held (3rd consecutive tick),
no other input is active and the cell to the left is free, yet `runTick`
does not attempt the one-cell move — block 0 stays at column 4.  The
delay-then-repeat cadence (`counter == 1 || counter > 5`) lives inside
`runTick`, not in the caller's input layer. -/
theorem held_move_skips_ticks :
    (runTick defaultState dasInput []).map (fun s' => (s'.playerPiece.blocks 0).1) = some 4
    ∧ dasInput.heldMoveLeft = true
    ∧ (updateCounters dasInput).counterMoveLeft = 3
    ∧ isBlockHere defaultState.gridData ((defaultState.playerPiece.blocks 0).1 + -1)
        ((defaultState.playerPiece.blocks 0).2 + 0) = false := by
  refine ⟨by decide, rfl, rfl, by decide⟩

/-- The idle input with move-left freshly pressed (counter becomes 1). -/
def pressLeftInput : QuadtrisInput := { idleInput with heldMoveLeft := true }

/-- Witness for `runTick_move_cadence`: a fresh move-left press on the
default state shifts the piece one column left. -/
theorem runTick_move_cadence_witness :
    ∃ s', runTick defaultState pressLeftInput [] = some s'
      ∧ ∀ i : Fin 4, (s'.playerPiece.blocks i).1
          = (defaultState.playerPiece.blocks i).1 - 1 :=
  (runTick_move_cadence defaultState pressLeftInput [] rfl rfl (by decide) (by decide)
    (by decide) (by decide) rfl rfl (by decide)).1 (by decide) (by decide) (by decide)

end Quadtris
